import Mathlib

/-!
# Verification of the matching-bot realtime SSE core

A shallow embedding of the Mercure SSE client
(`src/mercure/mercureSseClient.js`) and the login correlator
(`LoginMercureSubscriber.handlePayload`), together with proofs of the
specified properties: topic-union correctness, restart coalescing,
backoff monotonicity, generation fencing, SSE record parsing, and the
login-event guards.

Conventions of the embedding:
* JavaScript `Map`s become insertion-ordered association lists (`JsMap`),
  `Set`s become duplicate-free lists (`JsSet`).
* Handlers are opaque tags (`Nat`); invoking a handler is recorded as an
  `Effect` in an effect trace instead of executing a closure.
* Asynchronous code is split at its await points: each resumption
  (fetch settled, body read resolved, timer fired) is a separate pure
  transition function on the client state.
-/

namespace MatchingBot

/-! ## JavaScript `Map` and `Set` as ordered association lists -/

/-- A JavaScript `Map` keyed by `κ`: an insertion-ordered association list.
Reachable states keep keys duplicate-free, mirroring `Map`'s unique keys. -/
abbrev JsMap (κ α : Type) : Type := List (κ × α)

namespace JsMap

variable {κ α : Type} [DecidableEq κ]

/-- The empty map (`new Map()`). -/
def empty : JsMap κ α := []

/-- `Map.prototype.get`. -/
def get? : JsMap κ α → κ → Option α
  | [], _ => none
  | (k', v) :: rest, k => if k' = k then some v else get? rest k

/-- `Map.prototype.set`: update in place if the key exists, else append. -/
def set : JsMap κ α → κ → α → JsMap κ α
  | [], k, v => [(k, v)]
  | (k', v') :: rest, k, v =>
      if k' = k then (k, v) :: rest else (k', v') :: set rest k v

/-- `Map.prototype.delete`: remove the (unique) entry with the given key. -/
def del : JsMap κ α → κ → JsMap κ α
  | [], _ => []
  | (k', v') :: rest, k => if k' = k then rest else (k', v') :: del rest k

/-- `Map.prototype.has`. -/
def hasKey (m : JsMap κ α) (k : κ) : Bool := (get? m k).isSome

/-- `Map.prototype.size`. -/
def size (m : JsMap κ α) : Nat := m.length

/-- `Map.prototype.keys()` in insertion order. -/
def keys (m : JsMap κ α) : List κ := m.map Prod.fst

/-- Well-formedness: keys are pairwise distinct, as in a JS `Map`. -/
def KeysNodup (m : JsMap κ α) : Prop := (keys m).Nodup

end JsMap

/-- A JavaScript `Set`: a duplicate-free list in insertion order. -/
abbrev JsSet (α : Type) : Type := List α

namespace JsSet

variable {α : Type} [DecidableEq α]

/-- `new Set()`. -/
def empty : JsSet α := []

/-- `Set.prototype.add`: append if not already present. -/
def add (s : JsSet α) (x : α) : JsSet α := if x ∈ s then s else s ++ [x]

/-- `Set.prototype.delete`. -/
def del (s : JsSet α) (x : α) : JsSet α := List.erase s x

/-- `Set.prototype.size`. -/
def size (s : JsSet α) : Nat := s.length

end JsSet

/-! ## JavaScript string primitives

Kernel-computable models of the string methods the source uses
(`split`, `trim`, `trimStart`, `startsWith`, `slice`, `join`), defined by
structural recursion over the character list. -/

/-- Whitespace for `trim`/`trimStart` (the ASCII subset, which covers
every input the source handles). -/
def jsWhitespace (c : Char) : Bool :=
  c = ' ' || c = '\t' || c = '\n' || c = '\r'

/-- `String.prototype.trimStart`. -/
def jsTrimStart (s : String) : String :=
  String.mk (s.data.dropWhile jsWhitespace)

/-- `String.prototype.trimEnd`. -/
def jsTrimEnd (s : String) : String :=
  String.mk ((s.data.reverse.dropWhile jsWhitespace).reverse)

/-- `String.prototype.trim`. -/
def jsTrim (s : String) : String := jsTrimStart (jsTrimEnd s)

/-- `String.prototype.startsWith`. -/
def jsStartsWith (s pre : String) : Bool :=
  List.isPrefixOf pre.data s.data

/-- `String.prototype.slice(n)` for a nonnegative start. -/
def jsDrop (s : String) (n : Nat) : String := String.mk (s.data.drop n)

/-- `Array.prototype.join(sep)`. -/
def jsJoin (sep : String) : List String → String
  | [] => ""
  | [x] => x
  | x :: xs => x ++ sep ++ jsJoin sep xs

/-- The worker of `jsSplit`: leftmost non-overlapping splitting at a
non-empty separator, with fuel bounded by the input length. -/
def jsSplitLoop (sep : List Char) : Nat → List Char → List Char → List (List Char)
  | 0, rest, acc => [acc.reverse ++ rest]
  | fuel + 1, cs, acc =>
      match cs with
      | [] => [acc.reverse]
      | c :: cs2 =>
          if List.isPrefixOf sep (c :: cs2) then
            acc.reverse :: jsSplitLoop sep fuel ((c :: cs2).drop sep.length) []
          else jsSplitLoop sep fuel cs2 (c :: acc)

/-- `String.prototype.split(sep)` for a non-empty separator, as the
source uses it (and as `buffer.indexOf`/`slice` looping behaves). -/
def jsSplit (s : String) (sep : String) : List String :=
  (jsSplitLoop sep.data (s.data.length + 1) s.data []).map String.mk

/-! ## JSON values and a model of `JSON.parse` -/

/-- A JSON value. Numbers are modeled as integers, which covers every
numeric literal relevant to the specified behavior. -/
inductive Json where
  | null
  | bool (b : Bool)
  | num (n : Int)
  | str (s : String)
  | arr (elems : List Json)
  | obj (fields : List (String × Json))
deriving Repr

/-- JavaScript truthiness of a JSON value (`null`, `false`, `0` and the
empty string are falsy; arrays and objects are always truthy). -/
def Json.truthy : Json → Bool
  | .null => false
  | .bool b => b
  | .num n => n != 0
  | .str s => s != ""
  | .arr _ => true
  | .obj _ => true

/-- Property access `value.key`: `none` models JavaScript `undefined`
(including access of the relevant properties on non-object values). -/
def Json.getField : Json → String → Option Json
  | .obj fields, k => JsMap.get? fields k
  | _, _ => none

/-- Truthiness of a possibly-undefined value. -/
def truthyOpt : Option Json → Bool
  | none => false
  | some v => v.truthy

/-- `x || y` over possibly-undefined operands. -/
def jsOr (a b : Option Json) : Option Json :=
  match a with
  | some v => if v.truthy then some v else b
  | none => b

/-- `x ?? y`: `y` exactly when `x` is `null` or `undefined`. -/
def jsNullish (a b : Option Json) : Option Json :=
  match a with
  | none => b
  | some .null => b
  | some v => some v

mutual

/-- JavaScript `String(v)` on a JSON value (arrays join their elements
with commas; objects print as `[object Object]`). -/
def jsString : Json → String
  | .null => "null"
  | .bool b => if b then "true" else "false"
  | .num n => toString n
  | .str s => s
  | .arr elems => jsStringList elems
  | .obj _ => "[object Object]"

/-- Comma-joined stringification of array elements. -/
def jsStringList : List Json → String
  | [] => ""
  | [x] => jsString x
  | x :: xs => jsString x ++ "," ++ jsStringList xs

end

/-- Strict equality `v === 'lit'` between a possibly-undefined value and a
string literal. -/
def jsStrictEqStr (v : Option Json) (lit : String) : Bool :=
  match v with
  | some (.str s) => s = lit
  | _ => false

/-- The opening brace character, written via its code point. -/
def jsonLBrace : Char := Char.ofNat 123

/-- The closing brace character, written via its code point. -/
def jsonRBrace : Char := Char.ofNat 125

/-- Whitespace accepted between JSON tokens. -/
def jsonWs (c : Char) : Bool :=
  c = ' ' || c = '\n' || c = '\t' || c = '\r'

/-- Drop leading JSON whitespace. -/
def skipJsonWs : List Char → List Char
  | [] => []
  | c :: cs => if jsonWs c then skipJsonWs cs else c :: cs

/-- Decode one string-literal escape. -/
def parseJsonEscape (c : Char) : Option Char :=
  if c = '"' then some '"'
  else if c = '\\' then some '\\'
  else if c = '/' then some '/'
  else if c = 'n' then some '\n'
  else if c = 't' then some '\t'
  else if c = 'r' then some '\r'
  else none

/-- Body of a JSON string literal after the opening quote. -/
def parseJsonStringBody : Nat → List Char → Option (String × List Char)
  | 0, _ => none
  | fuel + 1, cs =>
      match cs with
      | [] => none
      | c :: rest =>
          if c = '"' then some ("", rest)
          else if c = '\\' then
            match rest with
            | e :: r2 =>
                match parseJsonEscape e with
                | some ec =>
                    (parseJsonStringBody fuel r2).map
                      (fun p => (ec.toString ++ p.1, p.2))
                | none => none
            | [] => none
          else
            (parseJsonStringBody fuel rest).map
              (fun p => (c.toString ++ p.1, p.2))

/-- A maximal run of decimal digits. -/
def parseJsonNat (cs : List Char) : Option (Nat × List Char) :=
  let digits := cs.takeWhile Char.isDigit
  if digits.isEmpty then none
  else
    some (digits.foldl (fun acc c => acc * 10 + (c.toNat - 48)) 0,
      cs.dropWhile Char.isDigit)

mutual

/-- One JSON value: the grammar fragment `JSON.parse` needs here
(null, booleans, integer numbers, strings, arrays, objects). -/
def parseJsonValue : Nat → List Char → Option (Json × List Char)
  | 0, _ => none
  | fuel + 1, cs =>
      match skipJsonWs cs with
      | [] => none
      | c :: rest =>
          if c = '"' then
            match parseJsonStringBody (rest.length + 1) rest with
            | some (s, r) => some (.str s, r)
            | none => none
          else if c = jsonLBrace then
            match skipJsonWs rest with
            | c2 :: r2 =>
                if c2 = jsonRBrace then some (.obj [], r2)
                else
                  match parseJsonMembers fuel rest with
                  | some (pairs, r) =>
                      some (.obj (pairs.foldl
                        (fun m p => JsMap.set m p.1 p.2) []), r)
                  | none => none
            | [] => none
          else if c = '[' then
            match skipJsonWs rest with
            | c2 :: r2 =>
                if c2 = ']' then some (.arr [], r2)
                else
                  match parseJsonElems fuel rest with
                  | some (vs, r) => some (.arr vs, r)
                  | none => none
            | [] => none
          else if List.isPrefixOf ['n', 'u', 'l', 'l'] (c :: rest) then
            some (.null, (c :: rest).drop 4)
          else if List.isPrefixOf ['t', 'r', 'u', 'e'] (c :: rest) then
            some (.bool true, (c :: rest).drop 4)
          else if List.isPrefixOf ['f', 'a', 'l', 's', 'e'] (c :: rest) then
            some (.bool false, (c :: rest).drop 5)
          else if c = '-' then
            match parseJsonNat rest with
            | some (n, r) => some (.num (-(n : Int)), r)
            | none => none
          else if c.isDigit then
            match parseJsonNat (c :: rest) with
            | some (n, r) => some (.num (n : Int), r)
            | none => none
          else none

/-- Comma-separated members of an object, up to the closing brace. -/
def parseJsonMembers : Nat → List Char → Option (List (String × Json) × List Char)
  | 0, _ => none
  | fuel + 1, cs =>
      match skipJsonWs cs with
      | c :: rest =>
          if c = '"' then
            match parseJsonStringBody (rest.length + 1) rest with
            | some (key, r1) =>
                match skipJsonWs r1 with
                | ':' :: r2 =>
                    match parseJsonValue fuel r2 with
                    | some (v, r3) =>
                        match skipJsonWs r3 with
                        | c4 :: r4 =>
                            if c4 = ',' then
                              match parseJsonMembers fuel r4 with
                              | some (pairs, r) => some ((key, v) :: pairs, r)
                              | none => none
                            else if c4 = jsonRBrace then
                              some ([(key, v)], r4)
                            else none
                        | [] => none
                    | none => none
                | _ => none
            | none => none
          else none
      | [] => none

/-- Comma-separated elements of an array, up to the closing bracket. -/
def parseJsonElems : Nat → List Char → Option (List Json × List Char)
  | 0, _ => none
  | fuel + 1, cs =>
      match parseJsonValue fuel cs with
      | some (v, rest) =>
          match skipJsonWs rest with
          | ',' :: r2 =>
              match parseJsonElems fuel r2 with
              | some (vs, r) => some (v :: vs, r)
              | none => none
          | ']' :: r2 => some ([v], r2)
          | _ => none
      | none => none

end

/-- Model of the platform function `JSON.parse`: `none` where it would
throw a `SyntaxError`. -/
def jsonParse (s : String) : Option Json :=
  match parseJsonValue (s.length + 1) s.data with
  | some (v, rest) => if (skipJsonWs rest).isEmpty then some v else none
  | none => none

/-! ## The Mercure SSE client (`mercureSseClient.js`) -/

/-- The constant `DEFAULT_BACKOFF_MS`. -/
def DEFAULT_BACKOFF_MS : Nat := 2000

/-- The constant `MAX_BACKOFF_MS`. -/
def MAX_BACKOFF_MS : Nat := 20000

/-- The hub URL built by `buildHubUrl`: the base URL plus one `topic`
query parameter per subscribed topic, in order. -/
structure HubUrl where
  base : String
  topicParams : List String
deriving Repr, DecidableEq

/-- `buildHubUrl(baseUrl, topics)`: `new URL(baseUrl)` with
`url.searchParams.append('topic', topic)` for each topic. -/
def buildHubUrl (baseUrl : String) (topics : List String) : HubUrl :=
  { base := baseUrl, topicParams := topics }

/-- Externally visible actions of the client: timer creation, abort and
network requests, handler invocations, warnings. Handlers are opaque
tags, so a handler invocation is an effect rather than a call. -/
inductive Effect where
  | restartTimerSet (reason : String) (delayMs : Nat)
  | streamClosing (reason : String)
  | abortCalled
  | fetchRequested (url : HubUrl) (generation : Nat)
  | streamStarted (generation : Nat)
  | readRequested (generation : Nat)
  | handlerCalled (handler : Nat) (payload : Json) (topic : String)
  | warnedParseFailure (dataString : String)
  | warnedMissingJwt
  | streamErrorLogged (generation : Nat)
  | reconnectScheduled (generation : Nat) (delayMs : Nat)
deriving Repr

/-- The mutable fields of a `MercureSseClient` instance. Subscription ids
are the strings `sub-${n}` in the source; since `n ↦ 'sub-' + n` is
injective, the embedding uses the counter value `n` itself as the id, and
handlers are opaque `Nat` tags. `restartTimer` holds the pending
coalescing timer's captured `reason` (the timer handle), `abortController`
and `reader` hold the generation that allocated them. -/
structure ClientState where
  hubUrl : String
  jwt : Option String
  backoffMs : Nat
  maxBackoffMs : Nat
  topics : JsMap String (JsSet Nat)
  subscriptionHandlers : JsMap Nat Nat
  subscriptionTopics : JsMap Nat String
  connectionActive : Bool
  currentBackoff : Nat
  abortController : Option Nat
  reader : Option Nat
  subscriptionCounter : Nat
  streamGeneration : Nat
  activeGeneration : Option Nat
  restartTimer : Option String
  pendingRestartReason : Option String
  restartDelayMs : Nat
deriving Repr, DecidableEq

/-- `new MercureSseClient({hubUrl, jwt, backoffMs, maxBackoffMs})`. -/
def ClientState.init (hubUrl : String) (jwt : Option String)
    (backoffMs : Nat) (maxBackoffMs : Nat) : ClientState where
  hubUrl := hubUrl
  jwt := jwt
  backoffMs := backoffMs
  maxBackoffMs := maxBackoffMs
  topics := JsMap.empty
  subscriptionHandlers := JsMap.empty
  subscriptionTopics := JsMap.empty
  connectionActive := false
  currentBackoff := backoffMs
  abortController := none
  reader := none
  subscriptionCounter := 0
  streamGeneration := 0
  activeGeneration := none
  restartTimer := none
  pendingRestartReason := none
  restartDelayMs := 200

/-- `!this.jwt`: the credential is absent or the empty string. -/
def jwtMissing (s : ClientState) : Bool :=
  match s.jwt with
  | none => true
  | some t => t = ""

/-- `clearScheduledRestart()`. -/
def clearScheduledRestart (s : ClientState) : ClientState :=
  if s.restartTimer.isSome then
    { s with restartTimer := none, pendingRestartReason := none }
  else s

/-- `stop()`: clear the pending coalescing timer, mark the connection
inactive, abort any in-flight stream, drop the reader and the active
generation. -/
def stop (s : ClientState) : ClientState × List Effect :=
  let s1 := clearScheduledRestart s
  let s2 := { s1 with connectionActive := false }
  let effs := if s2.abortController.isSome then [Effect.abortCalled] else []
  ({ s2 with reader := none, activeGeneration := none }, effs)

/-- `closeStream(reason, generation)`. -/
def closeStream (reason : String) (s : ClientState) : ClientState × List Effect :=
  let effs :=
    if s.abortController.isSome then
      [Effect.streamClosing reason, Effect.abortCalled]
    else []
  ({ s with reader := none, abortController := none }, effs)

/-- The synchronous prefix of `async startStream(generation,
topicsSnapshot)`, up to its `fetch` await: the guards, URL construction,
the fresh `AbortController`, and the outgoing request. -/
def startStreamSync (generation : Nat) (topicsSnapshot : List String)
    (s : ClientState) : ClientState × List Effect :=
  if jwtMissing s then (s, [Effect.warnedMissingJwt])
  else if s.connectionActive = false ∨ topicsSnapshot = [] then (s, [])
  else
    let url := buildHubUrl s.hubUrl topicsSnapshot
    ({ s with abortController := some generation },
      [Effect.fetchRequested url generation])

/-- `restartStream(reason)`. -/
def restartStream (reason : String) (s : ClientState) : ClientState × List Effect :=
  if jwtMissing s then (s, [Effect.warnedMissingJwt])
  else
    let topicsSnapshot := JsMap.keys s.topics
    if topicsSnapshot = [] then stop s
    else
      let s1 := { s with connectionActive := true }
      let s2 := clearScheduledRestart s1
      let (s3, effs3) := closeStream reason s2
      let nextGeneration := s3.streamGeneration + 1
      let s4 := { s3 with streamGeneration := nextGeneration,
                          activeGeneration := some nextGeneration }
      let (s5, effs5) := startStreamSync nextGeneration topicsSnapshot s4
      (s5, effs3 ++ effs5)

/-- `ensureConnection()`. -/
def ensureConnection (s : ClientState) : ClientState × List Effect :=
  if s.connectionActive = true ∨ JsMap.size s.topics = 0 then (s, [])
  else restartStream "initial_connect" s

/-- `scheduleRestart(reason)`: if a coalescing timer is already pending,
only update the pending reason; otherwise create the single timer. -/
def scheduleRestart (reason : String) (s : ClientState) : ClientState × List Effect :=
  match s.restartTimer with
  | some _ => ({ s with pendingRestartReason := some reason }, [])
  | none =>
      ({ s with pendingRestartReason := some reason, restartTimer := some reason },
        [Effect.restartTimerSet reason s.restartDelayMs])

/-- `subscribe(topic, handler)`: `Except.error` models the thrown
`Error` (`handler = none` models a non-function argument); on success
returns the new state, the emitted effects, and the subscription id
captured by the returned unsubscribe closure. -/
def subscribe (topic : String) (handler : Option Nat) (s : ClientState) :
    Except String (ClientState × List Effect × Nat) :=
  if topic = "" ∨ handler = none then
    Except.error "topic and handler are required for Mercure subscription"
  else
    match handler with
    | none => Except.error "topic and handler are required for Mercure subscription"
    | some h =>
        let subscriptionId := s.subscriptionCounter + 1
        let s1 := { s with subscriptionCounter := subscriptionId }
        let topicsMap :=
          if JsMap.hasKey s1.topics topic then s1.topics
          else JsMap.set s1.topics topic JsSet.empty
        let topicsMap2 :=
          match JsMap.get? topicsMap topic with
          | some ids => JsMap.set topicsMap topic (JsSet.add ids subscriptionId)
          | none => topicsMap
        let s2 := { s1 with
          topics := topicsMap2,
          subscriptionHandlers := JsMap.set s1.subscriptionHandlers subscriptionId h,
          subscriptionTopics := JsMap.set s1.subscriptionTopics subscriptionId topic }
        let (s3, effs) :=
          if s2.connectionActive then scheduleRestart "topic_added" s2
          else ensureConnection s2
        Except.ok (s3, effs, subscriptionId)

/-- `unsubscribe(subscriptionId)`. -/
def unsubscribe (subscriptionId : Nat) (s : ClientState) : ClientState × List Effect :=
  let topics1 :=
    match JsMap.get? s.subscriptionTopics subscriptionId with
    | some topic =>
        if topic = "" then s.topics
        else
          match JsMap.get? s.topics topic with
          | some ids =>
              let ids' := JsSet.del ids subscriptionId
              if JsSet.size ids' = 0 then JsMap.del s.topics topic
              else JsMap.set s.topics topic ids'
          | none => s.topics
    | none => s.topics
  let s1 := { s with
    topics := topics1,
    subscriptionHandlers := JsMap.del s.subscriptionHandlers subscriptionId,
    subscriptionTopics := JsMap.del s.subscriptionTopics subscriptionId }
  if JsMap.size s1.topics = 0 then stop s1
  else if s1.connectionActive then scheduleRestart "topic_removed" s1
  else (s1, [])

/-- The body of the coalescing timer created by `scheduleRestart`: read
the latest pending reason (falling back to the captured one), clear the
timer fields, and restart the stream. -/
def fireRestartTimer (s : ClientState) : ClientState × List Effect :=
  match s.restartTimer with
  | none => (s, [])
  | some capturedReason =>
      let pendingReason :=
        match s.pendingRestartReason with
        | some r => if r = "" then capturedReason else r
        | none => capturedReason
      restartStream pendingReason
        { s with restartTimer := none, pendingRestartReason := none }

/-- `scheduleReconnect(generation)`: the backoff computation and the
reconnect timer; the emitted effect carries the delay passed to
`setTimeout`. -/
def scheduleReconnect (generation : Nat) (s : ClientState) :
    ClientState × List Effect :=
  if s.connectionActive = false ∨ s.activeGeneration ≠ some generation then (s, [])
  else
    let delay := min s.currentBackoff s.maxBackoffMs
    ({ s with currentBackoff := min (s.currentBackoff * 2) s.maxBackoffMs },
      [Effect.reconnectScheduled generation delay])

/-- The body of the reconnect timer scheduled by `scheduleReconnect`. -/
def fireReconnectTimer (generation : Nat) (s : ClientState) :
    ClientState × List Effect :=
  if s.connectionActive = false ∨ s.activeGeneration ≠ some generation then (s, [])
  else restartStream "reconnect" s

/-- How the `fetch` of `startStream` settles: `ok` is a success response
with a body; `failed` covers both a rejected promise and the thrown
`Mercure connection failed` error, which land in the same `catch`. -/
inductive FetchResult where
  | ok
  | failed
deriving Repr, DecidableEq

/-- Resumption of `startStream(generation, _)` when its `fetch` settles:
on success reset the backoff to the floor, store the reader, and enter
`consumeStream`, whose loop guard immediately issues the first read when
it holds; on failure run the generation-checked `catch` block. -/
def onFetchSettled (generation : Nat) (r : FetchResult) (s : ClientState) :
    ClientState × List Effect :=
  match r with
  | .ok =>
      let s1 := { s with currentBackoff := s.backoffMs, reader := some generation }
      let firstRead :=
        if s1.connectionActive = true ∧ s1.reader.isSome ∧
            s1.activeGeneration = some generation then
          [Effect.readRequested generation]
        else []
      (s1, Effect.streamStarted generation :: firstRead)
  | .failed =>
      if s.connectionActive = false ∨ s.activeGeneration ≠ some generation then (s, [])
      else
        let (s1, effs) := scheduleReconnect generation s
        (s1, Effect.streamErrorLogged generation :: effs)

/-- `deriveTopicsFromPayload(payload)` of the generation-fenced client. -/
def deriveTopicsFromPayload (payload : Json) : List String :=
  let telegramUserId :=
    jsOr (jsOr (payload.getField "telegramUserId") (payload.getField "telegram_user_id"))
      (payload.getField "telegram_userId")
  let chatId :=
    jsOr (jsOr (payload.getField "chatId") (payload.getField "chat_id"))
      (payload.getField "telegram_chat_id")
  let topicKey := jsOr telegramUserId chatId
  match topicKey with
  | some v => if v.truthy then ["/tg/login/" ++ jsString v] else []
  | none => []

/-- `dispatchEvent({payload, topics})`: resolve the topic list (explicit
hints, else derived from the payload, else all currently active topics)
and invoke every registered handler of every resolved topic. -/
def dispatchEvent (payload : Json) (topics : List String) (s : ClientState) :
    List Effect :=
  let topicList := if topics ≠ [] then topics else deriveTopicsFromPayload payload
  let topicList := if topicList = [] then JsMap.keys s.topics else topicList
  if topicList = [] then []
  else
    (topicList.map (fun topic =>
      match JsMap.get? s.topics topic with
      | none => []
      | some subscriptionIds =>
          subscriptionIds.filterMap (fun subscriptionId =>
            (JsMap.get? s.subscriptionHandlers subscriptionId).map
              (fun handler => Effect.handlerCalled handler payload topic)))).flatten

/-- The fields accumulated by `handleRawEvent`'s line scan. -/
structure RawEventFields where
  dataLines : List String
  topics : List String
  eventId : Option String
  eventType : Option String
deriving Repr, DecidableEq

/-- One line of the `rawEvent.split('\n').forEach(...)` scan: the line is
trimmed; `data:` lines are stripped of the tag and of all leading
whitespace (`trimStart`), `id:`/`event:` set the respective field,
`topic:` lines accumulate. -/
def parseRawEventStep (acc : RawEventFields) (line : String) : RawEventFields :=
  let trimmed := jsTrim line
  if jsStartsWith trimmed "data:" then
    { acc with dataLines := acc.dataLines ++ [jsTrimStart (jsDrop trimmed 5)] }
  else if jsStartsWith trimmed "id:" then
    { acc with eventId := some (jsTrim (jsDrop trimmed 3)) }
  else if jsStartsWith trimmed "event:" then
    { acc with eventType := some (jsTrim (jsDrop trimmed 6)) }
  else if jsStartsWith trimmed "topic:" then
    { acc with topics := acc.topics ++ [jsTrim (jsDrop trimmed 6)] }
  else acc

/-- The whole `rawEvent.split('\n').forEach(...)` scan. -/
def parseRawEvent (rawEvent : String) : RawEventFields :=
  (jsSplit rawEvent "\n").foldl parseRawEventStep
    { dataLines := [], topics := [], eventId := none, eventType := none }

/-- `dataLines.join('\n')`. -/
def recordDataString (fields : RawEventFields) : String :=
  jsJoin "\n" fields.dataLines

/-- `handleRawEvent(rawEvent, generation)`: scan the record's lines,
reassemble and JSON-parse the data payload, and dispatch. A record with
no data lines is ignored; a parse failure is logged (`console.warn`) and
the record is dropped. The function reads but never mutates client
state. -/
def handleRawEvent (rawEvent : String) (_generation : Nat) (s : ClientState) :
    List Effect :=
  let fields := parseRawEvent rawEvent
  if fields.dataLines = [] then []
  else
    let dataString := recordDataString fields
    match jsonParse dataString with
    | some payload =>
        let derivedTopics :=
          if fields.topics ≠ [] then fields.topics
          else deriveTopicsFromPayload payload
        dispatchEvent payload derivedTopics s
    | none => [Effect.warnedParseFailure dataString]

/-- The inner `while ((separatorIndex = buffer.indexOf('\n\n')) !== -1)`
loop of `consumeStream`: the buffer's complete records under leftmost
blank-line splitting, and the remaining partial record. -/
def extractRecords (buffer : String) : List String × String :=
  let parts := jsSplit buffer "\n\n"
  (parts.dropLast, parts.getLastD buffer)

/-- How a pending `reader.read()` settles: a data chunk, end of stream
(`done`), or a rejection (e.g. after an abort). -/
inductive ReadResult where
  | chunk (data : String)
  | done
  | failed
deriving Repr, DecidableEq

/-- Resumption of `consumeStream(generation)` when the awaited read
settles, given the loop's local `buffer`. A chunk is appended, its
complete records are handled (and dispatched) before the loop guard is
examined again; the third component is the new buffer when the guard
still held and the next read was issued, and `none` when the loop
exited. `done` throws `Mercure stream closed`, which propagates to
`startStream`'s generation-checked `catch`, as does a rejected read. -/
def streamReadResolved (generation : Nat) (buffer : String) (r : ReadResult)
    (s : ClientState) : ClientState × List Effect × Option String :=
  match r with
  | .chunk data =>
      let buffer1 := buffer ++ data
      let (records, rem) := extractRecords buffer1
      let effs := (records.map (fun rec => handleRawEvent rec generation s)).flatten
      if s.connectionActive = true ∧ s.reader.isSome ∧
          s.activeGeneration = some generation then
        (s, effs ++ [Effect.readRequested generation], some rem)
      else (s, effs, none)
  | .done =>
      if s.connectionActive = false ∨ s.activeGeneration ≠ some generation then
        (s, [], none)
      else
        let (s1, effs) := scheduleReconnect generation s
        (s1, Effect.streamErrorLogged generation :: effs, none)
  | .failed =>
      if s.connectionActive = false ∨ s.activeGeneration ≠ some generation then
        (s, [], none)
      else
        let (s1, effs) := scheduleReconnect generation s
        (s1, Effect.streamErrorLogged generation :: effs, none)

/-- One step of the client's single-threaded event loop: a public API
call or the resumption of a pending asynchronous continuation. -/
inductive ClientOp where
  | subscribe (topic : String) (handler : Nat)
  | unsubscribe (subscriptionId : Nat)
  | stop
  | fireRestartTimer
  | fetchSettled (generation : Nat) (result : FetchResult)
  | readResolved (generation : Nat) (buffer : String) (r : ReadResult)
  | fireReconnectTimer (generation : Nat)

/-- Apply one step, discarding effects. A `subscribe` that throws leaves
the state unchanged: the throw precedes every mutation. -/
def applyOp (s : ClientState) (op : ClientOp) : ClientState :=
  match op with
  | .subscribe topic handler =>
      match subscribe topic (some handler) s with
      | .ok (s', _, _) => s'
      | .error _ => s
  | .unsubscribe id => (unsubscribe id s).1
  | .stop => (stop s).1
  | .fireRestartTimer => (fireRestartTimer s).1
  | .fetchSettled g r => (onFetchSettled g r s).1
  | .readResolved g b r => (streamReadResolved g b r s).1
  | .fireReconnectTimer g => (fireReconnectTimer g s).1

/-- Run a sequence of steps. -/
def runOps (s : ClientState) (ops : List ClientOp) : ClientState :=
  ops.foldl applyOp s

/-! ## The login correlator (`LoginMercureSubscriber.handlePayload`) -/

/-- `getTelegramUserIdFromPayload(payload)` from `utils/telegramUserId.js`:
the first non-nullish of the three user-id spellings, rejected when it is
`null`, `undefined` or the empty string, else stringified. -/
def getTelegramUserIdFromPayload (payload : Json) : Option String :=
  let rawId :=
    jsNullish (jsNullish (payload.getField "telegramUserId")
      (payload.getField "telegram_user_id")) (payload.getField "telegram_userId")
  match rawId with
  | none => none
  | some .null => none
  | some (.str "") => none
  | some v => some (jsString v)

/-- `payload.chat_id ?? payload.chatId ?? payload.telegram_chat_id`. -/
def payloadChatIdOf (payload : Json) : Option Json :=
  jsNullish (jsNullish (payload.getField "chat_id") (payload.getField "chatId"))
    (payload.getField "telegram_chat_id")

/-- The handler's resolved actor key:
`telegramUserId ?? (payloadChatId ? String(payloadChatId) : null)`. -/
def resolvedTelegramUserId (payload : Json) : Option String :=
  match getTelegramUserIdFromPayload payload with
  | some t => some t
  | none =>
      match payloadChatIdOf payload with
      | some v => if v.truthy then some (jsString v) else none
      | none => none

/-- The argument object passed to the `onUserLoggedIn` callback. -/
structure LoginCallbackArgs where
  telegramUserId : String
  chatId : Option String
  jwt : Option Json
  email : Option Json
  userId : Option Json
deriving Repr

/-- The observable outcome of one `handlePayload` call. `delivered` means
the `onUserLoggedIn` callback is invoked with the given arguments (when a
callback function is registered). -/
inductive LoginOutcome where
  | skippedInvalidPayload
  | skippedMismatch
  | skippedMissingJwt
  | delivered (args : LoginCallbackArgs)
  | ignoredUnknownType
deriving Repr

/-- The callback arguments when the outcome delivered them. -/
def LoginOutcome.deliveredArgs : LoginOutcome → Option LoginCallbackArgs
  | .delivered args => some args
  | _ => none

/-- The anti-cross-talk guard's condition:
`resolvedTelegramUserId && String(resolvedTelegramUserId) !== String(subscriptionKey)`
(the resolved key is already a string, so `String(...)` is the identity;
its truthiness is non-emptiness). -/
def actorKeyMismatch (subscriptionKey : String) (payload : Json) : Bool :=
  match resolvedTelegramUserId payload with
  | some rid => rid != "" && rid != subscriptionKey
  | none => false

/-- `LoginMercureSubscriber.handlePayload(subscriptionKey, payload,
topic)`: the invalid-payload guard, the actor-key anti-cross-talk guard,
then the `login_success` branch (which requires `payload.jwt`) and the
`user_logged_in` branch (which does not). `subscriptionKey` is already a
string (`ensureSubscription` stores `String(chatId)`), so
`String(subscriptionKey)` is the key itself. -/
def handlePayload (subscriptionKey : String) (payload : Json) : LoginOutcome :=
  let payloadChatId := payloadChatIdOf payload
  let resolved := resolvedTelegramUserId payload
  if payload.truthy = false ∨ truthyOpt (payload.getField "type") = false then
    .skippedInvalidPayload
  else if actorKeyMismatch subscriptionKey payload then
    .skippedMismatch
  else if jsStrictEqStr (payload.getField "type") "login_success" then
    if truthyOpt (payload.getField "jwt") = false then .skippedMissingJwt
    else
      .delivered {
        telegramUserId := subscriptionKey,
        chatId := (match payloadChatId with
          | some v => if v.truthy then some (jsString v) else none
          | none => none),
        jwt := payload.getField "jwt",
        email := payload.getField "email",
        userId := jsNullish (payload.getField "user_id") (payload.getField "userId") }
  else if jsStrictEqStr (payload.getField "type") "user_logged_in" then
    .delivered {
      telegramUserId := (match resolved with
        | some rid => if rid != "" then rid else subscriptionKey
        | none => subscriptionKey),
      chatId := (match payloadChatId with
        | some v => if v.truthy then some (jsString v) else none
        | none => none),
      jwt := payload.getField "jwt",
      email := payload.getField "email",
      userId := jsNullish (payload.getField "user_id") (payload.getField "userId") }
  else .ignoredUnknownType

/-- Recognize a coalescing-timer creation effect. -/
def Effect.isRestartTimerSet : Effect → Bool
  | .restartTimerSet _ _ => true
  | _ => false

/-- Recognize an outgoing connection attempt. -/
def Effect.isFetchRequested : Effect → Bool
  | .fetchRequested _ _ => true
  | _ => false

/-- Recognize a handler invocation. -/
def Effect.isHandlerCalled : Effect → Bool
  | .handlerCalled _ _ _ => true
  | _ => false

/-- Iterate `scheduleRestart` over a list of reasons: `N` topic-set
changes arriving before the coalescing timer fires. -/
def scheduleRestartMany : List String → ClientState → ClientState × List Effect
  | [], s => (s, [])
  | r :: rs, s =>
      let p1 := scheduleRestart r s
      let p2 := scheduleRestartMany rs p1.1
      (p2.1, p1.2 ++ p2.2)


/-- Iterated connection failures: the client state after `n` runs of
`scheduleReconnect` for the same active generation. -/
def reconnectIter (generation : Nat) (s : ClientState) : Nat → ClientState
  | 0 => s
  | n + 1 => (scheduleReconnect generation (reconnectIter generation s n)).1

/-- The delay the (n+1)-st consecutive failure passes to `setTimeout`:
`min(currentBackoff, maxBackoffMs)` at that point. -/
def reconnectDelay (generation : Nat) (s : ClientState) (n : Nat) : Nat :=
  min (reconnectIter generation s n).currentBackoff
    (reconnectIter generation s n).maxBackoffMs

/-- A topic with at least one live handler: some subscription id is
registered to it and still has a handler. -/
def topicHasLiveHandler (s : ClientState) (t : String) : Bool :=
  s.subscriptionTopics.any
    (fun p => p.2 == t && JsMap.hasKey s.subscriptionHandlers p.1)

/-- The registry half of the client state: the three bookkeeping maps and
the id counter. -/
def registryOf (s : ClientState) :
    JsMap String (JsSet Nat) × JsMap Nat Nat × JsMap Nat String × Nat :=
  (s.topics, s.subscriptionHandlers, s.subscriptionTopics, s.subscriptionCounter)

/-- Well-formedness of the subscription registry, maintained by every
reachable state: the maps have unique keys, a topic's id set is nonempty,
duplicate-free and consistent with `subscriptionTopics`, every registered
id's topic is present in `topics` and is a non-empty string, handlers and
topics have the same id domain, and ids never exceed the counter (which
makes the next allocated id fresh). -/
structure RegistryWF (s : ClientState) : Prop where
  topicsNodup : JsMap.KeysNodup s.topics
  handlersNodup : JsMap.KeysNodup s.subscriptionHandlers
  subTopicsNodup : JsMap.KeysNodup s.subscriptionTopics
  idsConsistent : ∀ t ids, JsMap.get? s.topics t = some ids →
    ids ≠ [] ∧ ids.Nodup ∧ ∀ id ∈ ids, JsMap.get? s.subscriptionTopics id = some t
  topicPresent : ∀ id t, JsMap.get? s.subscriptionTopics id = some t →
    ∃ ids, JsMap.get? s.topics t = some ids ∧ id ∈ ids
  domEq : ∀ id, JsMap.hasKey s.subscriptionHandlers id =
    JsMap.hasKey s.subscriptionTopics id
  topicsNonempty : ∀ id t, JsMap.get? s.subscriptionTopics id = some t → t ≠ ""
  counterBound : ∀ id, JsMap.hasKey s.subscriptionTopics id = true →
    id ≤ s.subscriptionCounter

/-- A demonstration client: credential present, default backoff limits. -/
def demoInit : ClientState := ClientState.init "https://hub" (some "jwt-token") 2000 20000

/-- One subscriber (handler tag 7) on `/tg/login/42`; the initial
connection attempt of generation 1 is in flight. -/
def demoSubscribed : ClientState :=
  applyOp demoInit (ClientOp.subscribe "/tg/login/42" 7)

/-- The fetch of generation 1 succeeded: the stream is being consumed. -/
def demoStreaming : ClientState :=
  applyOp demoSubscribed (ClientOp.fetchSettled 1 FetchResult.ok)

/-- A restart has begun generation 2 while generation 1's read is still
pending. -/
def demoRestarted : ClientState := (restartStream "topic_added" demoStreaming).1

/-- A `user_logged_in` payload with matching chat id and no `jwt`. -/
def loginPayloadNoJwt : Json :=
  Json.obj [("type", Json.str "user_logged_in"), ("chat_id", Json.str "42")]

/-- A `login_success` payload whose telegram user id matches the
subscription key `42` while its declared chat id `99` does not. -/
def loginPayloadMixedIds : Json :=
  Json.obj [("type", Json.str "login_success"),
    ("telegram_user_id", Json.str "42"), ("chat_id", Json.str "99"),
    ("jwt", Json.str "x")]

/-- The per-line data transform of `handleRawEvent`, factored out:
whole-line trim, `data:` tag strip, `trimStart` (all leading
whitespace). -/
def dataLineOf (line : String) : Option String :=
  let trimmed := jsTrim line
  if jsStartsWith trimmed "data:" then some (jsTrimStart (jsDrop trimmed 5))
  else none

/-- A second definition following the spec's words, for comparison with
the code: "lines prefixed `data:` are concatenated (newline-joined) and
trimmed of one leading space" — exactly one leading space is removed
after the `data:` tag. -/
def specOneSpaceData (rawEvent : String) : String :=
  jsJoin "\n"
    (((jsSplit rawEvent "\n").filter (fun l => jsStartsWith l "data:")).map
      (fun l =>
        let rest := jsDrop l 5
        if jsStartsWith rest " " then jsDrop rest 1 else rest))

/-! ## Theorems -/

namespace JsMap

variable {κ α : Type} [DecidableEq κ]


@[simp] theorem get?_empty (k : κ) : get? (empty : JsMap κ α) k = none := rfl

omit [DecidableEq κ] in
@[simp] theorem keys_nil : keys ([] : JsMap κ α) = [] := rfl

omit [DecidableEq κ] in
@[simp] theorem keys_cons (p : κ × α) (rest : JsMap κ α) :
    keys (p :: rest) = p.1 :: keys rest := rfl

@[simp] theorem get?_set_self (m : JsMap κ α) (k : κ) (v : α) :
    get? (set m k v) k = some v := by
  induction m with
  | nil => simp [set, get?]
  | cons p rest ih =>
      by_cases h : p.1 = k <;> simp [set, get?, h, ih]

theorem get?_set_ne (m : JsMap κ α) {k k' : κ} (v : α) (h : k' ≠ k) :
    get? (set m k v) k' = get? m k' := by
  induction m with
  | nil => simp [set, get?, Ne.symm h]
  | cons p rest ih =>
      by_cases hp : p.1 = k
      · subst hp
        simp [set, get?, Ne.symm h]
      · simp [set, get?, hp, ih]

theorem get?_del_ne (m : JsMap κ α) {k k' : κ} (h : k' ≠ k) :
    get? (del m k) k' = get? m k' := by
  induction m with
  | nil => simp [del]
  | cons p rest ih =>
      by_cases hp : p.1 = k
      · subst hp
        simp [del, get?, Ne.symm h]
      · simp [del, get?, hp, ih]

theorem get?_eq_none_of_not_mem_keys (m : JsMap κ α) (k : κ) (h : k ∉ keys m) :
    get? m k = none := by
  induction m with
  | nil => rfl
  | cons p rest ih =>
      simp only [keys_cons, List.mem_cons] at h
      push_neg at h
      simp [get?, Ne.symm h.1, ih h.2]

theorem get?_del_self (m : JsMap κ α) (k : κ) (hwf : KeysNodup m) :
    get? (del m k) k = none := by
  induction m with
  | nil => rfl
  | cons p rest ih =>
      simp only [KeysNodup, keys_cons, List.nodup_cons] at hwf
      by_cases hp : p.1 = k
      · subst hp
        simp only [del, if_pos rfl]
        exact get?_eq_none_of_not_mem_keys rest p.1 hwf.1
      · simp [del, get?, hp, ih hwf.2]

theorem mem_keys_iff_get? (m : JsMap κ α) (k : κ) :
    k ∈ keys m ↔ (get? m k).isSome := by
  induction m with
  | nil => simp [get?]
  | cons p rest ih =>
      by_cases hp : p.1 = k
      · subst hp
        simp [get?]
      · simp [get?, hp, ih, Ne.symm hp]

theorem mem_keys_set (m : JsMap κ α) (k k' : κ) (v : α) :
    k' ∈ keys (set m k v) ↔ k' ∈ keys m ∨ k' = k := by
  induction m with
  | nil => simp [set]
  | cons p rest ih =>
      by_cases hp : p.1 = k
      · subst hp
        simp [set]
        tauto
      · simp [set, hp, ih]
        tauto

theorem keysNodup_set (m : JsMap κ α) (k : κ) (v : α) (hwf : KeysNodup m) :
    KeysNodup (set m k v) := by
  induction m with
  | nil => simp [set, KeysNodup]
  | cons p rest ih =>
      simp only [KeysNodup, keys_cons, List.nodup_cons] at hwf
      by_cases hp : p.1 = k
      · subst hp
        have hset : set (p :: rest) p.1 v = (p.1, v) :: rest := by simp [set]
        rw [hset]
        simp only [KeysNodup, keys_cons, List.nodup_cons]
        exact hwf
      · have h2 := ih hwf.2
        simp only [set, if_neg hp, KeysNodup, keys_cons, List.nodup_cons]
        refine ⟨fun hmem => ?_, h2⟩
        rcases (mem_keys_set rest k p.1 v).mp hmem with h1 | h1
        · exact hwf.1 h1
        · exact hp h1

theorem keys_del_sublist (m : JsMap κ α) (k : κ) :
    (keys (del m k)).Sublist (keys m) := by
  induction m with
  | nil => simp [del]
  | cons p rest ih =>
      by_cases hp : p.1 = k
      · simp only [del, if_pos hp, keys_cons]
        exact List.sublist_cons_self _ _
      · simp only [del, if_neg hp, keys_cons]
        exact List.Sublist.cons₂ p.1 ih

theorem keysNodup_del (m : JsMap κ α) (k : κ) (hwf : KeysNodup m) :
    KeysNodup (del m k) :=
  List.Nodup.sublist (keys_del_sublist m k) hwf

theorem mem_keys_del (m : JsMap κ α) {k k' : κ} (h : k' ≠ k) :
    k' ∈ keys (del m k) ↔ k' ∈ keys m := by
  rw [mem_keys_iff_get?, mem_keys_iff_get?, get?_del_ne m h]


end JsMap


/-- `del` is the identity when the key is absent. -/
theorem JsMap.del_eq_of_get?_none {κ α : Type} [DecidableEq κ]
    (m : JsMap κ α) (k : κ) (h : JsMap.get? m k = none) : JsMap.del m k = m := by
  induction m with
  | nil => rfl
  | cons p rest ih =>
      by_cases hp : p.1 = k
      · simp [JsMap.get?, hp] at h
      · simp only [JsMap.get?, if_neg hp] at h
        simp [JsMap.del, hp, ih h]


theorem scheduleRestart_pending (s : ClientState) (c r : String)
    (h : s.restartTimer = some c) :
    scheduleRestart r s = ({ s with pendingRestartReason := some r }, []) := by
  simp [scheduleRestart, h]

theorem scheduleRestartMany_pending (rs : List String) (s : ClientState)
    (c : String) (h : s.restartTimer = some c) :
    (scheduleRestartMany rs s).1.restartTimer = some c ∧
    (scheduleRestartMany rs s).2 = [] := by
  induction rs generalizing s with
  | nil => exact ⟨h, rfl⟩
  | cons r rs ih =>
      have hstep := scheduleRestart_pending s c r h
      simp only [scheduleRestartMany, hstep]
      exact ih _ h

/-- The effect list of `restartStream` when the credential is present and
the topic snapshot is nonempty: the optional close of the previous
stream, then exactly one outgoing request for the snapshot's URL. -/
theorem restartStream_effects (reason : String) (s : ClientState)
    (hjwt : jwtMissing s = false) (htop : JsMap.keys s.topics ≠ []) :
    (restartStream reason s).2 =
      (if s.abortController.isSome then
        [Effect.streamClosing reason, Effect.abortCalled]
      else []) ++
      [Effect.fetchRequested (buildHubUrl s.hubUrl (JsMap.keys s.topics))
        (s.streamGeneration + 1)] := by
  cases hj : s.jwt with
  | none => simp [jwtMissing, hj] at hjwt
  | some tok =>
      have htok : ¬tok = "" := by simpa [jwtMissing, hj] using hjwt
      unfold restartStream
      rw [if_neg (by simp [jwtMissing, hj, htok]), if_neg htop]
      unfold clearScheduledRestart closeStream startStreamSync
      cases hrt : s.restartTimer <;>
        cases habort : s.abortController <;>
          simp [jwtMissing, hj, htok, htop]

/-- The state after `restartStream` under the same conditions: the timer
fields are cleared and the new generation is active. -/
theorem restartStream_state (reason : String) (s : ClientState)
    (hjwt : jwtMissing s = false) (htop : JsMap.keys s.topics ≠ []) :
    (restartStream reason s).1.restartTimer = none ∧
    (restartStream reason s).1.activeGeneration = some (s.streamGeneration + 1) ∧
    (restartStream reason s).1.streamGeneration = s.streamGeneration + 1 ∧
    (restartStream reason s).1.connectionActive = true := by
  cases hj : s.jwt with
  | none => simp [jwtMissing, hj] at hjwt
  | some tok =>
      have htok : ¬tok = "" := by simpa [jwtMissing, hj] using hjwt
      unfold restartStream
      rw [if_neg (by simp [jwtMissing, hj, htok]), if_neg htop]
      unfold clearScheduledRestart closeStream startStreamSync
      cases hrt : s.restartTimer <;>
        cases habort : s.abortController <;>
          simp [jwtMissing, hj, htok, htop]


/-! ## C10: argument validation of `subscribe` -/

/-- C10: `subscribe(topic, handler)` throws an `Error` synchronously when
the topic is empty/falsy or the handler is not a function; the throw
precedes every mutation, so no registration is recorded and no connection
activity starts (the state is left untouched). -/
theorem subscribe_argument_validation (topic : String) (handler : Option Nat)
    (s : ClientState) (h : topic = "" ∨ handler = none) :
    subscribe topic handler s =
      Except.error "topic and handler are required for Mercure subscription" ∧
    (∀ (hTag : Nat) (s' : ClientState),
      applyOp s' (ClientOp.subscribe "" hTag) = s') := by
  constructor
  · unfold subscribe
    rw [if_pos h]
  · intro hTag s'
    simp [applyOp, subscribe]

/-- Witness: the validation fires at a concrete input. -/
theorem subscribe_argument_validation_witness :
    subscribe "" (some 5) demoInit =
      Except.error "topic and handler are required for Mercure subscription" :=
  (subscribe_argument_validation "" (some 5) demoInit (Or.inl rfl)).1

/-! ## C5: restart coalescing -/

/-- C5: restart coalescing. From a state with no pending coalescing
timer, `N ≥ 1` successive topic-set changes create exactly one timer;
every change arriving while the timer is pending only updates the pending
restart's reason and creates no second timer; and when the single timer
fires, exactly one restart occurs, whose one connection attempt carries
the union (the key set) of the current topics. -/
theorem restart_coalescing (s : ClientState) (r : String) (rs : List String)
    (hTimer : s.restartTimer = none) :
    ((scheduleRestartMany (r :: rs) s).2.countP
        (fun e => Effect.isRestartTimerSet e) = 1) ∧
    ((scheduleRestartMany (r :: rs) s).1.restartTimer = some r) ∧
    (∀ (s' : ClientState) (c r' : String), s'.restartTimer = some c →
      scheduleRestart r' s' = ({ s' with pendingRestartReason := some r' }, [])) ∧
    (∀ s' : ClientState, s'.restartTimer.isSome → jwtMissing s' = false →
      JsMap.keys s'.topics ≠ [] →
      ((fireRestartTimer s').2.countP (fun e => Effect.isFetchRequested e) = 1 ∧
        (fireRestartTimer s').1.restartTimer = none ∧
        ∀ url g, Effect.fetchRequested url g ∈ (fireRestartTimer s').2 →
          url = buildHubUrl s'.hubUrl (JsMap.keys s'.topics))) := by
  have hfirst : scheduleRestart r s =
      ({ s with pendingRestartReason := some r, restartTimer := some r },
        [Effect.restartTimerSet r s.restartDelayMs]) := by
    simp [scheduleRestart, hTimer]
  have hrest := scheduleRestartMany_pending rs
    { s with pendingRestartReason := some r, restartTimer := some r } r rfl
  refine ⟨?_, ?_, ?_, ?_⟩
  · simp only [scheduleRestartMany, hfirst, hrest.2]
    simp [Effect.isRestartTimerSet]
  · simp only [scheduleRestartMany, hfirst]
    exact hrest.1
  · intro s' c r' h
    exact scheduleRestart_pending s' c r' h
  · intro s' hsome hjwt htop
    cases hrt : s'.restartTimer with
    | none => rw [hrt] at hsome; simp at hsome
    | some c =>
        have hfire : fireRestartTimer s' =
            restartStream
              (match s'.pendingRestartReason with
                | some rr => if rr = "" then c else rr
                | none => c)
              { s' with restartTimer := none, pendingRestartReason := none } := by
          simp [fireRestartTimer, hrt]
        set s'' : ClientState :=
          { s' with restartTimer := none, pendingRestartReason := none } with hs''
        have hjwt' : jwtMissing s'' = false := hjwt
        have htop' : JsMap.keys s''.topics ≠ [] := htop
        have heffs := restartStream_effects
          (match s'.pendingRestartReason with
            | some rr => if rr = "" then c else rr
            | none => c) s'' hjwt' htop'
        have hstate := restartStream_state
          (match s'.pendingRestartReason with
            | some rr => if rr = "" then c else rr
            | none => c) s'' hjwt' htop'
        refine ⟨?_, ?_, ?_⟩
        · rw [hfire, heffs]
          by_cases habort : s''.abortController.isSome <;>
            simp [habort, Effect.isFetchRequested]
        · rw [hfire]
          exact hstate.1
        · intro url g hmem
          rw [hfire, heffs] at hmem
          rcases List.mem_append.mp hmem with hin | hin
          · by_cases habort : s''.abortController.isSome <;>
              simp [habort] at hin
          · have h1 := List.mem_singleton.mp hin
            injection h1 with h2 h3
            try exact h2

/-- Witness: two rapid subscribes while streaming create exactly one
coalescing timer. -/
theorem restart_coalescing_witness :
    (scheduleRestartMany ["topic_added", "topic_added"] demoStreaming).2.countP
      (fun e => Effect.isRestartTimerSet e) = 1 :=
  (restart_coalescing demoStreaming "topic_added" ["topic_added"] rfl).1

/-! ## C6: backoff monotonicity, cap, and reset -/

theorem reconnectIter_preserved (generation : Nat) (s : ClientState) (n : Nat) :
    (reconnectIter generation s n).connectionActive = s.connectionActive ∧
    (reconnectIter generation s n).activeGeneration = s.activeGeneration ∧
    (reconnectIter generation s n).maxBackoffMs = s.maxBackoffMs := by
  induction n with
  | zero => exact ⟨rfl, rfl, rfl⟩
  | succ n ih =>
      simp only [reconnectIter]
      unfold scheduleReconnect
      split
      · exact ih
      · simpa using ih

/-- C6: for every run of consecutive connection failures, the `n`-th
reconnect delay is `min(currentBackoff, maxBackoff)` at that point, the
backoff is doubled and capped after each failure, the delays are
non-decreasing and never exceed the configured maximum, and a successful
stream establishment resets the backoff to its floor `backoffMs`. -/
theorem backoff_monotonicity_cap_reset (generation : Nat) (s : ClientState)
    (hact : s.connectionActive = true)
    (hgen : s.activeGeneration = some generation) :
    (∀ n : Nat,
      (scheduleReconnect generation (reconnectIter generation s n)).2 =
        [Effect.reconnectScheduled generation (reconnectDelay generation s n)] ∧
      (reconnectIter generation s (n + 1)).currentBackoff =
        min ((reconnectIter generation s n).currentBackoff * 2) s.maxBackoffMs) ∧
    (∀ n : Nat, reconnectDelay generation s n ≤ reconnectDelay generation s (n + 1)) ∧
    (∀ n : Nat, reconnectDelay generation s n ≤ s.maxBackoffMs) ∧
    (∀ (g' : Nat) (s' : ClientState),
      (onFetchSettled g' FetchResult.ok s').1.currentBackoff = s'.backoffMs) := by
  have hpres := reconnectIter_preserved generation s
  have hguard : ∀ n : Nat,
      ¬((reconnectIter generation s n).connectionActive = false ∨
        (reconnectIter generation s n).activeGeneration ≠ some generation) := by
    intro n
    push_neg
    exact ⟨by simp [(hpres n).1, hact], by simp [(hpres n).2.1, hgen]⟩
  have hstep : ∀ n : Nat,
      (scheduleReconnect generation (reconnectIter generation s n)).2 =
        [Effect.reconnectScheduled generation (reconnectDelay generation s n)] ∧
      (reconnectIter generation s (n + 1)).currentBackoff =
        min ((reconnectIter generation s n).currentBackoff * 2) s.maxBackoffMs := by
    intro n
    constructor
    · unfold scheduleReconnect
      rw [if_neg (hguard n)]
      simp [reconnectDelay, (hpres n).2.2]
    · show (scheduleReconnect generation (reconnectIter generation s n)).1.currentBackoff = _
      unfold scheduleReconnect
      rw [if_neg (hguard n)]
      simp [(hpres n).2.2]
  refine ⟨hstep, ?_, ?_, ?_⟩
  · intro n
    have hcur := (hstep n).2
    unfold reconnectDelay
    rw [hcur, (hpres (n + 1)).2.2, (hpres n).2.2]
    have h1 : min ((reconnectIter generation s n).currentBackoff * 2)
        s.maxBackoffMs ⊓ s.maxBackoffMs =
        min ((reconnectIter generation s n).currentBackoff * 2) s.maxBackoffMs := by
      rw [min_assoc, min_self]
    rw [h1]
    exact min_le_min (by omega) (le_refl _)
  · intro n
    unfold reconnectDelay
    rw [(hpres n).2.2]
    exact min_le_right _ _
  · intro g' s'
    simp [onFetchSettled]

/-- Witness: the first two failure delays from the demonstration state
are the floor 2000ms and then 4000ms, both within the cap. -/
theorem backoff_monotonicity_cap_reset_witness :
    reconnectDelay 1 demoStreaming 0 ≤ reconnectDelay 1 demoStreaming 1 :=
  (backoff_monotonicity_cap_reset 1 demoStreaming rfl rfl).2.1 0

/-! ## C8: SSE data-line reassembly -/

theorem parseRawEvent_foldl_dataLines (lines : List String) (acc : RawEventFields) :
    (lines.foldl parseRawEventStep acc).dataLines =
      acc.dataLines ++ lines.filterMap dataLineOf := by
  induction lines generalizing acc with
  | nil => simp
  | cons l ls ih =>
      rw [List.foldl_cons, ih, List.filterMap_cons]
      unfold parseRawEventStep dataLineOf
      by_cases h1 : jsStartsWith (jsTrim l) "data:"
      · simp [h1]
      · by_cases h2 : jsStartsWith (jsTrim l) "id:" <;>
          by_cases h3 : jsStartsWith (jsTrim l) "event:" <;>
          by_cases h4 : jsStartsWith (jsTrim l) "topic:" <;>
          simp [h1, h2, h3, h4]

/-- C8 counterexample: on the record `data:␣␣x` (two spaces after the
tag) the code removes both leading spaces, so the string handed to
`JSON.parse` is not the one-space-trimmed join the claim describes. -/
theorem sse_one_space_cex :
    recordDataString (parseRawEvent "data:  x") = "x" ∧
    specOneSpaceData "data:  x" = " x" ∧
    recordDataString (parseRawEvent "data:  x") ≠ specOneSpaceData "data:  x" :=
  ⟨rfl, rfl, by decide⟩

/-- C8 (amended): each `data:` line is whole-line trimmed, stripped of
the tag and of ALL leading whitespace (`trimStart`, not exactly one
space), and the results are newline-joined before JSON parsing; in
particular a record whose JSON is split across two physical `data:`
lines is reassembled by the newline join and parses as
`{"a":1,"b":2}`. -/
theorem sse_data_line_reassembly (rawEvent : String) :
    recordDataString (parseRawEvent rawEvent) =
      jsJoin "\n" ((jsSplit rawEvent "\n").filterMap dataLineOf) ∧
    jsonParse (recordDataString
        (parseRawEvent "data: \x7b\"a\":1,\ndata: \"b\":2\x7d")) =
      some (Json.obj [("a", Json.num 1), ("b", Json.num 2)]) := by
  constructor
  · unfold recordDataString parseRawEvent
    rw [parseRawEvent_foldl_dataLines]
    rfl
  · rfl

/-! ## C9: malformed payload containment -/

/-- C9: a record whose concatenated data lines fail to JSON-parse yields
exactly the `console.warn` effect — the record is dropped and no handler
is invoked; resuming the read loop on a data chunk never mutates client
state, and whether the loop issues the next read depends only on the
loop guard, never on the records' content, so a malformed record cannot
stop the loop or escape as an exception. -/
theorem malformed_payload_containment (rawEvent : String) (g : Nat)
    (s : ClientState)
    (hdata : (parseRawEvent rawEvent).dataLines ≠ [])
    (hbad : jsonParse (recordDataString (parseRawEvent rawEvent)) = none) :
    handleRawEvent rawEvent g s =
      [Effect.warnedParseFailure (recordDataString (parseRawEvent rawEvent))] ∧
    (∀ buffer data : String,
      (streamReadResolved g buffer (ReadResult.chunk data) s).1 = s) ∧
    (∀ buffer data : String,
      ((streamReadResolved g buffer (ReadResult.chunk data) s).2.2.isSome ↔
        (s.connectionActive = true ∧ s.reader.isSome ∧
          s.activeGeneration = some g))) := by
  refine ⟨?_, ?_, ?_⟩
  · simp only [handleRawEvent]
    rw [if_neg hdata, hbad]
  · intro buffer data
    by_cases hc : (s.connectionActive = true ∧ s.reader.isSome ∧
        s.activeGeneration = some g) <;>
      simp [streamReadResolved, hc]
  · intro buffer data
    by_cases hc : (s.connectionActive = true ∧ s.reader.isSome ∧
        s.activeGeneration = some g) <;>
      simp [streamReadResolved, hc]

/-- Witness: a non-JSON record produces only the warning, at a concrete
streaming state. -/
theorem malformed_payload_containment_witness :
    handleRawEvent "data: oops" 1 demoStreaming =
      [Effect.warnedParseFailure (recordDataString (parseRawEvent "data: oops"))] :=
  (malformed_payload_containment "data: oops" 1 demoStreaming (by decide) rfl).1

/-! ## C1: generation fencing -/

theorem dispatchEvent_effects_handlerCalled (payload : Json)
    (topics : List String) (s : ClientState) :
    ∀ e ∈ dispatchEvent payload topics s, Effect.isHandlerCalled e = true := by
  intro e he
  simp only [dispatchEvent] at he
  by_cases hc : (if (if topics ≠ [] then topics
      else deriveTopicsFromPayload payload) = [] then JsMap.keys s.topics
      else if topics ≠ [] then topics else deriveTopicsFromPayload payload) = []
  · rw [if_pos hc] at he
    simp at he
  · rw [if_neg hc] at he
    rcases List.mem_flatten.mp he with ⟨l, hl, hel⟩
    rcases List.mem_map.mp hl with ⟨topic, _, rfl⟩
    cases hids : JsMap.get? s.topics topic with
    | none => rw [hids] at hel; simp at hel
    | some ids =>
        rw [hids] at hel
        rcases List.mem_filterMap.mp hel with ⟨id, _, hmap⟩
        cases hh : JsMap.get? s.subscriptionHandlers id with
        | none => rw [hh] at hmap; simp at hmap
        | some handler =>
            rw [hh] at hmap
            simp only [Option.map_some'] at hmap
            cases hmap
            rfl

theorem handleRawEvent_no_read (rawEvent : String) (g g' : Nat)
    (s : ClientState) :
    Effect.readRequested g' ∉ handleRawEvent rawEvent g s := by
  intro hmem
  simp only [handleRawEvent] at hmem
  by_cases hd : (parseRawEvent rawEvent).dataLines = []
  · simp [hd] at hmem
  · rw [if_neg hd] at hmem
    cases hp : jsonParse (recordDataString (parseRawEvent rawEvent)) with
    | none => rw [hp] at hmem; simp at hmem
    | some payload =>
        rw [hp] at hmem
        have hshape := dispatchEvent_effects_handlerCalled payload
          (if (parseRawEvent rawEvent).topics ≠ [] then (parseRawEvent rawEvent).topics
            else deriveTopicsFromPayload payload) s _ hmem
        simp [Effect.isHandlerCalled] at hshape

/-- C1 counterexample: a restart has begun generation 2 while generation
1's read was pending; when that read resolves with a record-carrying data
chunk, the subscribed handler IS invoked (the loop guard is only
re-examined after the chunk is processed), contradicting the claim that
no handler runs. -/
theorem generation_fencing_cex :
    demoRestarted.activeGeneration = some 2 ∧
    demoRestarted.connectionActive = true ∧
    (streamReadResolved 1 "" (ReadResult.chunk "data: \x7b\"x\":1\x7d\n\n")
        demoRestarted).2.1 =
      [Effect.handlerCalled 7 (Json.obj [("x", Json.num 1)]) "/tg/login/42"] :=
  ⟨rfl, rfl, rfl⟩

/-- C1 (amended): when a read pending under a stale generation resolves,
no client state is mutated, the loop exits without issuing another read
(silently), and a read that resolves as done or rejected produces nothing
at all; however the records completed by a chunk that resolves with data
are still dispatched once to the current handler tables (see the
counterexample). -/
theorem generation_fencing (generation : Nat) (buffer : String)
    (r : ReadResult) (s : ClientState)
    (hstale : s.activeGeneration ≠ some generation) :
    (streamReadResolved generation buffer r s).1 = s ∧
    (streamReadResolved generation buffer r s).2.2 = none ∧
    (∀ g', Effect.readRequested g' ∉ (streamReadResolved generation buffer r s).2.1) ∧
    ((r = ReadResult.done ∨ r = ReadResult.failed) →
      (streamReadResolved generation buffer r s).2.1 = []) := by
  cases r with
  | chunk data =>
      have hcond : ¬(s.connectionActive = true ∧ s.reader.isSome ∧
          s.activeGeneration = some generation) := by
        intro h
        exact hstale h.2.2
      refine ⟨?_, ?_, ?_, ?_⟩
      · simp [streamReadResolved, hcond]
      · simp [streamReadResolved, hcond]
      · intro g' hmem
        simp only [streamReadResolved] at hmem
        rw [if_neg hcond] at hmem
        rcases List.mem_flatten.mp hmem with ⟨l, hl, hel⟩
        rcases List.mem_map.mp hl with ⟨rec, _, rfl⟩
        exact handleRawEvent_no_read rec generation g' s hel
      · rintro (h | h) <;> cases h
  | done =>
      have hguard : s.connectionActive = false ∨
          s.activeGeneration ≠ some generation := Or.inr hstale
      exact ⟨by simp [streamReadResolved, hguard],
        by simp [streamReadResolved, hguard],
        by intro g'; simp [streamReadResolved, hguard],
        by intro h; simp [streamReadResolved, hguard]⟩
  | failed =>
      have hguard : s.connectionActive = false ∨
          s.activeGeneration ≠ some generation := Or.inr hstale
      exact ⟨by simp [streamReadResolved, hguard],
        by simp [streamReadResolved, hguard],
        by intro g'; simp [streamReadResolved, hguard],
        by intro h; simp [streamReadResolved, hguard]⟩

/-- Witness: the amended fencing applied to the demonstration scenario. -/
theorem generation_fencing_witness :
    (streamReadResolved 1 ""
      (ReadResult.chunk "data: \x7b\"x\":1\x7d\n\n") demoRestarted).1 =
      demoRestarted :=
  (generation_fencing 1 "" (ReadResult.chunk "data: \x7b\"x\":1\x7d\n\n")
    demoRestarted (by decide)).1

/-! ## C3: login credential requirement -/

/-- C3 counterexample: a `user_logged_in` payload whose chat id matches
the subscription key but which carries no `jwt` field still reaches the
`onUserLoggedIn` callback (with an undefined credential) — the credential
check exists only in the `login_success` branch. -/
theorem login_credential_requirement_cex :
    Json.getField loginPayloadNoJwt "jwt" = none ∧
    handlePayload "42" loginPayloadNoJwt =
      LoginOutcome.delivered
        { telegramUserId := "42", chatId := some "42", jwt := none,
          email := none, userId := none } :=
  ⟨rfl, rfl⟩

/-- C3 (amended): for `login_success` events the claim holds — a payload
without a truthy `jwt` (in particular, without a `jwt` field) is
discarded with a warning and the callback is never invoked; for
`user_logged_in` events no credential check is performed (see the
counterexample). -/
theorem login_credential_requirement (key : String) (payload : Json)
    (htype : jsStrictEqStr (payload.getField "type") "login_success" = true)
    (hjwt : truthyOpt (payload.getField "jwt") = false) :
    (handlePayload key payload).deliveredArgs = none ∧
    (payload.truthy = true → truthyOpt (payload.getField "type") = true →
      actorKeyMismatch key payload = false →
      handlePayload key payload = LoginOutcome.skippedMissingJwt) := by
  simp only [handlePayload]
  by_cases h1 : payload.truthy = false ∨ truthyOpt (payload.getField "type") = false
  · rw [if_pos h1]
    refine ⟨rfl, ?_⟩
    intro ht1 ht2 _
    rcases h1 with h | h
    · rw [ht1] at h; cases h
    · rw [ht2] at h; cases h
  · rw [if_neg h1]
    by_cases hm : actorKeyMismatch key payload = true
    · rw [if_pos hm]
      refine ⟨rfl, ?_⟩
      intro _ _ hmf
      rw [hm] at hmf
      cases hmf
    · rw [if_neg hm, if_pos htype, if_pos hjwt]
      exact ⟨rfl, fun _ _ _ => rfl⟩

/-- Witness: a `login_success` payload without `jwt` is skipped with the
warning. -/
theorem login_credential_requirement_witness :
    (handlePayload "42"
      (Json.obj [("type", Json.str "login_success"),
        ("chat_id", Json.str "42")])).deliveredArgs = none :=
  (login_credential_requirement "42"
    (Json.obj [("type", Json.str "login_success"),
      ("chat_id", Json.str "42")]) rfl rfl).1

/-! ## C4: login cross-talk guard -/

/-- C4 counterexample: a payload that declares a chat identifier `99`
differing from the subscription key `42` is NOT discarded when its
telegram user id matches the key — the guard compares only the resolved
identifier, in which the user id takes precedence over the chat id. -/
theorem login_cross_talk_guard_cex :
    payloadChatIdOf loginPayloadMixedIds = some (Json.str "99") ∧
    jsString (Json.str "99") ≠ "42" ∧
    (handlePayload "42" loginPayloadMixedIds).deliveredArgs =
      some { telegramUserId := "42", chatId := some "99",
             jwt := some (Json.str "x"), email := none, userId := none } :=
  ⟨rfl, by decide, rfl⟩

/-- C4 (amended): for every terminal event type, a payload whose RESOLVED
actor identifier — the telegram user id under its supported spellings if
present, else the stringified chat id under its spellings — is truthy and
differs from the subscription key is discarded and the callback is not
invoked. -/
theorem login_cross_talk_guard (key : String) (payload : Json)
    (hmis : actorKeyMismatch key payload = true) :
    (handlePayload key payload).deliveredArgs = none ∧
    (payload.truthy = true → truthyOpt (payload.getField "type") = true →
      handlePayload key payload = LoginOutcome.skippedMismatch) := by
  simp only [handlePayload]
  by_cases h1 : payload.truthy = false ∨ truthyOpt (payload.getField "type") = false
  · rw [if_pos h1]
    refine ⟨rfl, ?_⟩
    intro ht1 ht2
    rcases h1 with h | h
    · rw [ht1] at h; cases h
    · rw [ht2] at h; cases h
  · rw [if_neg h1, if_pos hmis]
    exact ⟨rfl, fun _ _ => rfl⟩

/-- Witness: a payload carrying only the mismatching user id `99` on the
key-`42` subscription is discarded. -/
theorem login_cross_talk_guard_witness :
    (handlePayload "42"
      (Json.obj [("type", Json.str "login_success"),
        ("telegram_user_id", Json.str "99"),
        ("jwt", Json.str "x")])).deliveredArgs = none :=
  (login_cross_talk_guard "42"
    (Json.obj [("type", Json.str "login_success"),
      ("telegram_user_id", Json.str "99"), ("jwt", Json.str "x")]) rfl).1

/-! ## C2: topic union correctness — registry invariant machinery -/

theorem JsMap.mem_of_get?_eq_some {κ α : Type} [DecidableEq κ]
    (m : JsMap κ α) (k : κ) (v : α) (h : JsMap.get? m k = some v) :
    (k, v) ∈ m := by
  induction m with
  | nil => simp [JsMap.get?] at h
  | cons p rest ih =>
      by_cases hp : p.1 = k
      · simp only [JsMap.get?, if_pos hp] at h
        injection h with hv
        subst hv
        have hpair : (k, p.2) = p := by rw [← hp]
        rw [hpair]
        exact List.mem_cons_self p rest
      · simp only [JsMap.get?, if_neg hp] at h
        exact List.mem_cons.mpr (Or.inr (ih h))

theorem JsMap.get?_of_mem_nodup {κ α : Type} [DecidableEq κ]
    (m : JsMap κ α) (k : κ) (v : α) (hwf : JsMap.KeysNodup m)
    (h : (k, v) ∈ m) : JsMap.get? m k = some v := by
  induction m with
  | nil => simp at h
  | cons p rest ih =>
      simp only [JsMap.KeysNodup, JsMap.keys_cons, List.nodup_cons] at hwf
      rcases List.mem_cons.mp h with h1 | h1
      · rw [← h1]
        simp [JsMap.get?]
      · have hne : p.1 ≠ k := by
          intro hk
          apply hwf.1
          rw [hk]
          exact List.mem_map.mpr ⟨(k, v), h1, rfl⟩
        simp only [JsMap.get?, if_neg hne]
        exact ih hwf.2 h1

theorem registryWF_congr (s s' : ClientState) (h : registryOf s' = registryOf s)
    (hwf : RegistryWF s) : RegistryWF s' := by
  unfold registryOf at h
  have h1 : s'.topics = s.topics := congrArg Prod.fst h
  have h2 : s'.subscriptionHandlers = s.subscriptionHandlers :=
    congrArg (fun p => p.2.1) h
  have h3 : s'.subscriptionTopics = s.subscriptionTopics :=
    congrArg (fun p => p.2.2.1) h
  have h4 : s'.subscriptionCounter = s.subscriptionCounter :=
    congrArg (fun p => p.2.2.2) h
  constructor
  · rw [h1]; exact hwf.topicsNodup
  · rw [h2]; exact hwf.handlersNodup
  · rw [h3]; exact hwf.subTopicsNodup
  · simp only [h1, h3]; exact hwf.idsConsistent
  · simp only [h1, h3]; exact hwf.topicPresent
  · simp only [h2, h3]; exact hwf.domEq
  · simp only [h3]; exact hwf.topicsNonempty
  · simp only [h3, h4]; exact hwf.counterBound

theorem registryOf_clearScheduledRestart (s : ClientState) :
    registryOf (clearScheduledRestart s) = registryOf s := by
  unfold clearScheduledRestart
  split <;> rfl

theorem registryOf_stop (s : ClientState) :
    registryOf (stop s).1 = registryOf s := by
  unfold stop clearScheduledRestart
  split <;> rfl

theorem registryOf_closeStream (reason : String) (s : ClientState) :
    registryOf (closeStream reason s).1 = registryOf s := rfl

theorem registryOf_startStreamSync (generation : Nat) (snapshot : List String)
    (s : ClientState) :
    registryOf (startStreamSync generation snapshot s).1 = registryOf s := by
  unfold startStreamSync
  split
  · rfl
  · split <;> rfl

theorem registryOf_restartStream (reason : String) (s : ClientState) :
    registryOf (restartStream reason s).1 = registryOf s := by
  unfold restartStream
  split
  · rfl
  · dsimp only
    split
    · exact registryOf_stop s
    · unfold clearScheduledRestart closeStream startStreamSync
      dsimp only
      repeat' split <;> try rfl

theorem registryOf_scheduleRestart (reason : String) (s : ClientState) :
    registryOf (scheduleRestart reason s).1 = registryOf s := by
  unfold scheduleRestart
  split <;> rfl

theorem registryOf_ensureConnection (s : ClientState) :
    registryOf (ensureConnection s).1 = registryOf s := by
  unfold ensureConnection
  split
  · rfl
  · exact registryOf_restartStream "initial_connect" s

theorem registryOf_fireRestartTimer (s : ClientState) :
    registryOf (fireRestartTimer s).1 = registryOf s := by
  unfold fireRestartTimer
  split
  · rfl
  · rw [registryOf_restartStream]
    rfl

theorem registryOf_scheduleReconnect (generation : Nat) (s : ClientState) :
    registryOf (scheduleReconnect generation s).1 = registryOf s := by
  unfold scheduleReconnect
  split <;> rfl

theorem registryOf_fireReconnectTimer (generation : Nat) (s : ClientState) :
    registryOf (fireReconnectTimer generation s).1 = registryOf s := by
  unfold fireReconnectTimer
  split
  · rfl
  · exact registryOf_restartStream "reconnect" s

theorem registryOf_onFetchSettled (generation : Nat) (r : FetchResult)
    (s : ClientState) :
    registryOf (onFetchSettled generation r s).1 = registryOf s := by
  cases r with
  | ok =>
      simp only [onFetchSettled]
      rfl
  | failed =>
      simp only [onFetchSettled]
      split
      · rfl
      · rcases hsr : scheduleReconnect generation s with ⟨s1, effs⟩
        have h2 := registryOf_scheduleReconnect generation s
        rw [hsr] at h2
        simpa using h2

theorem registryOf_streamReadResolved (generation : Nat) (buffer : String)
    (r : ReadResult) (s : ClientState) :
    registryOf (streamReadResolved generation buffer r s).1 = registryOf s := by
  cases r with
  | chunk data =>
      simp only [streamReadResolved, extractRecords]
      split <;> rfl
  | done =>
      simp only [streamReadResolved]
      split
      · rfl
      · rcases hsr : scheduleReconnect generation s with ⟨s1, effs⟩
        have h2 := registryOf_scheduleReconnect generation s
        rw [hsr] at h2
        simpa using h2
  | failed =>
      simp only [streamReadResolved]
      split
      · rfl
      · rcases hsr : scheduleReconnect generation s with ⟨s1, effs⟩
        have h2 := registryOf_scheduleReconnect generation s
        rw [hsr] at h2
        simpa using h2

theorem JsMap.set_set {κ α : Type} [DecidableEq κ]
    (m : JsMap κ α) (k : κ) (v w : α) :
    JsMap.set (JsMap.set m k v) k w = JsMap.set m k w := by
  induction m with
  | nil => simp [JsMap.set]
  | cons p rest ih =>
      by_cases hp : p.1 = k <;> simp [JsMap.set, hp, ih]

theorem registryWF_init (hubUrl : String) (jwt : Option String)
    (backoffMs maxBackoffMs : Nat) :
    RegistryWF (ClientState.init hubUrl jwt backoffMs maxBackoffMs) := by
  constructor <;>
    simp [ClientState.init, JsMap.KeysNodup, JsMap.keys, JsMap.empty,
      JsMap.get?, JsMap.hasKey]

/-- The registry after the mutations of a successful `subscribe(topic,
handler)` call is still well-formed: the fresh id `counter + 1` is added
to the topic's id set and registered in both id-keyed maps. -/
theorem registryWF_subscribed (topic : String) (h : Nat) (s : ClientState)
    (hwf : RegistryWF s) (htop : topic ≠ "") (ids0 : JsSet Nat)
    (hids0 : JsMap.get? s.topics topic = some ids0 ∨
      (JsMap.get? s.topics topic = none ∧ ids0 = [])) :
    RegistryWF { s with
      subscriptionCounter := s.subscriptionCounter + 1,
      topics := JsMap.set s.topics topic
        (JsSet.add ids0 (s.subscriptionCounter + 1)),
      subscriptionHandlers :=
        JsMap.set s.subscriptionHandlers (s.subscriptionCounter + 1) h,
      subscriptionTopics :=
        JsMap.set s.subscriptionTopics (s.subscriptionCounter + 1) topic } := by
  have hbound : ∀ i ∈ ids0, i ≤ s.subscriptionCounter := by
    intro i hi
    rcases hids0 with hsome | ⟨_, hnil⟩
    · have h1 := (hwf.idsConsistent topic ids0 hsome).2.2 i hi
      exact hwf.counterBound i (by simp [JsMap.hasKey, h1])
    · rw [hnil] at hi
      simp at hi
  have hids0nodup : ids0.Nodup := by
    rcases hids0 with hsome | ⟨_, hnil⟩
    · exact (hwf.idsConsistent topic ids0 hsome).2.1
    · rw [hnil]; exact List.nodup_nil
  have hids0st : ∀ i ∈ ids0, JsMap.get? s.subscriptionTopics i = some topic := by
    intro i hi
    rcases hids0 with hsome | ⟨_, hnil⟩
    · exact (hwf.idsConsistent topic ids0 hsome).2.2 i hi
    · rw [hnil] at hi; simp at hi
  have hnotmem : s.subscriptionCounter + 1 ∉ ids0 := by
    intro hmem
    have := hbound _ hmem
    omega
  have hadd : JsSet.add ids0 (s.subscriptionCounter + 1) =
      ids0 ++ [s.subscriptionCounter + 1] := by
    simp [JsSet.add, hnotmem]
  have hfresh_st : JsMap.get? s.subscriptionTopics (s.subscriptionCounter + 1) =
      none := by
    cases hg : JsMap.get? s.subscriptionTopics (s.subscriptionCounter + 1) with
    | none => rfl
    | some t =>
        have := hwf.counterBound (s.subscriptionCounter + 1)
          (by simp [JsMap.hasKey, hg])
        omega
  have hold_bound : ∀ i t, JsMap.get? s.subscriptionTopics i = some t →
      i ≤ s.subscriptionCounter := by
    intro i t hg
    exact hwf.counterBound i (by simp [JsMap.hasKey, hg])
  constructor
  · exact JsMap.keysNodup_set _ _ _ hwf.topicsNodup
  · exact JsMap.keysNodup_set _ _ _ hwf.handlersNodup
  · exact JsMap.keysNodup_set _ _ _ hwf.subTopicsNodup
  · -- idsConsistent
    intro t ids hids
    simp only at hids ⊢
    by_cases ht : t = topic
    · subst ht
      rw [JsMap.get?_set_self] at hids
      injection hids with hids
      subst hids
      rw [hadd]
      refine ⟨by simp, ?_, ?_⟩
      · exact List.Nodup.append hids0nodup (List.nodup_singleton _)
          (by intro a ha hb; simp at hb; subst hb; exact hnotmem ha)
      · intro i hi
        rcases List.mem_append.mp hi with hi | hi
        · have hne : i ≠ s.subscriptionCounter + 1 := by
            have := hbound i hi
            omega
          rw [JsMap.get?_set_ne _ _ hne]
          exact hids0st i hi
        · simp at hi
          subst hi
          rw [JsMap.get?_set_self]
    · rw [JsMap.get?_set_ne _ _ ht] at hids
      obtain ⟨hne, hnd, hall⟩ := hwf.idsConsistent t ids hids
      refine ⟨hne, hnd, ?_⟩
      intro i hi
      have hle := hold_bound i t (hall i hi)
      have hine : i ≠ s.subscriptionCounter + 1 := by omega
      rw [JsMap.get?_set_ne _ _ hine]
      exact hall i hi
  · -- topicPresent
    intro i t hst
    simp only at hst ⊢
    by_cases hi : i = s.subscriptionCounter + 1
    · subst hi
      rw [JsMap.get?_set_self] at hst
      injection hst with hst
      subst hst
      refine ⟨JsSet.add ids0 (s.subscriptionCounter + 1),
        JsMap.get?_set_self _ _ _, ?_⟩
      rw [hadd]
      simp
    · rw [JsMap.get?_set_ne _ _ hi] at hst
      obtain ⟨ids, hids, hmem⟩ := hwf.topicPresent i t hst
      by_cases ht : t = topic
      · subst ht
        rcases hids0 with hsome | ⟨hnone, _⟩
        · rw [hsome] at hids
          injection hids with hids
          subst hids
          refine ⟨JsSet.add ids0 (s.subscriptionCounter + 1),
            JsMap.get?_set_self _ _ _, ?_⟩
          rw [hadd]
          exact List.mem_append.mpr (Or.inl hmem)
        · rw [hnone] at hids
          cases hids
      · exact ⟨ids, by rw [JsMap.get?_set_ne _ _ ht]; exact hids, hmem⟩
  · -- domEq
    intro i
    simp only
    by_cases hi : i = s.subscriptionCounter + 1
    · subst hi
      simp [JsMap.hasKey]
    · simp [JsMap.hasKey, JsMap.get?_set_ne _ _ hi]
      have := hwf.domEq i
      simp [JsMap.hasKey] at this
      exact this
  · -- topicsNonempty
    intro i t hst
    simp only at hst
    by_cases hi : i = s.subscriptionCounter + 1
    · subst hi
      rw [JsMap.get?_set_self] at hst
      injection hst with hst
      subst hst
      exact htop
    · rw [JsMap.get?_set_ne _ _ hi] at hst
      exact hwf.topicsNonempty i t hst
  · -- counterBound
    intro i hkey
    simp only [JsMap.hasKey] at hkey
    simp only
    by_cases hi : i = s.subscriptionCounter + 1
    · omega
    · rw [JsMap.get?_set_ne _ _ hi] at hkey
      cases hg : JsMap.get? s.subscriptionTopics i with
      | none => rw [hg] at hkey; simp at hkey
      | some t =>
          have := hold_bound i t hg
          omega

/-- The registry after the map mutations of `unsubscribe(subscriptionId)`
is still well-formed, for every branch: unknown id, topic kept with a
shrunken id set, or topic dropped when its id set empties. -/
theorem registryWF_unsubscribed (id : Nat) (s : ClientState)
    (hwf : RegistryWF s) :
    RegistryWF { s with
      topics :=
        match JsMap.get? s.subscriptionTopics id with
        | some topic =>
            if topic = "" then s.topics
            else
              match JsMap.get? s.topics topic with
              | some ids =>
                  if JsSet.size (JsSet.del ids id) = 0 then
                    JsMap.del s.topics topic
                  else JsMap.set s.topics topic (JsSet.del ids id)
              | none => s.topics
        | none => s.topics,
      subscriptionHandlers := JsMap.del s.subscriptionHandlers id,
      subscriptionTopics := JsMap.del s.subscriptionTopics id } := by
  have hdel_st_self : JsMap.get? (JsMap.del s.subscriptionTopics id) id = none :=
    JsMap.get?_del_self _ _ hwf.subTopicsNodup
  have hdel_h_self : JsMap.get? (JsMap.del s.subscriptionHandlers id) id = none :=
    JsMap.get?_del_self _ _ hwf.handlersNodup
  cases hst : JsMap.get? s.subscriptionTopics id with
  | none =>
      constructor <;> simp only [hst]
      · exact hwf.topicsNodup
      · exact JsMap.keysNodup_del _ _ hwf.handlersNodup
      · exact JsMap.keysNodup_del _ _ hwf.subTopicsNodup
      · intro t ids hids
        obtain ⟨hne, hnd, hall⟩ := hwf.idsConsistent t ids hids
        refine ⟨hne, hnd, ?_⟩
        intro i hi
        have hgi := hall i hi
        have hine : i ≠ id := by
          intro hi2
          rw [hi2, hst] at hgi
          cases hgi
        rw [JsMap.get?_del_ne _ hine]
        exact hgi
      · intro i t hgt
        have hine : i ≠ id := by
          intro hi2
          rw [hi2, hdel_st_self] at hgt
          cases hgt
        rw [JsMap.get?_del_ne _ hine] at hgt
        exact hwf.topicPresent i t hgt
      · intro i
        by_cases hi : i = id
        · subst hi
          simp [JsMap.hasKey, hdel_st_self, hdel_h_self]
        · simp [JsMap.hasKey, JsMap.get?_del_ne _ hi]
          have := hwf.domEq i
          simpa [JsMap.hasKey] using this
      · intro i t hgt
        have hine : i ≠ id := by
          intro hi2
          rw [hi2, hdel_st_self] at hgt
          cases hgt
        rw [JsMap.get?_del_ne _ hine] at hgt
        exact hwf.topicsNonempty i t hgt
      · intro i hkey
        simp only [JsMap.hasKey] at hkey
        by_cases hi : i = id
        · rw [hi, hdel_st_self] at hkey
          simp at hkey
        · rw [JsMap.get?_del_ne _ hi] at hkey
          exact hwf.counterBound i (by simpa [JsMap.hasKey] using hkey)
  | some topic =>
      have htopne : topic ≠ "" := hwf.topicsNonempty id topic hst
      obtain ⟨ids, hids, hidmem⟩ := hwf.topicPresent id topic hst
      obtain ⟨hidsne, hidsnd, hidsall⟩ := hwf.idsConsistent topic ids hids
      have herase_nodup : (JsSet.del ids id).Nodup := List.Nodup.erase id hidsnd
      have hmem_erase : ∀ i, i ∈ JsSet.del ids id ↔ i ≠ id ∧ i ∈ ids := by
        intro i
        exact List.Nodup.mem_erase_iff hidsnd
      -- the subscription-topics facts shared by both branches
      have hst_clause : ∀ i t, JsMap.get? (JsMap.del s.subscriptionTopics id) i =
          some t → i ≠ id ∧ JsMap.get? s.subscriptionTopics i = some t := by
        intro i t hgt
        have hine : i ≠ id := by
          intro hi2
          rw [hi2, hdel_st_self] at hgt
          cases hgt
        rw [JsMap.get?_del_ne _ hine] at hgt
        exact ⟨hine, hgt⟩
      simp only [hst]
      rw [if_neg htopne, hids]
      dsimp only
      by_cases hsz : JsSet.size (JsSet.del ids id) = 0
      · -- id set emptied: the topic is dropped
        have hempty : JsSet.del ids id = [] := by
          simpa [JsSet.size, List.length_eq_zero] using hsz
        rw [if_pos hsz]
        constructor
        · exact JsMap.keysNodup_del _ _ hwf.topicsNodup
        · exact JsMap.keysNodup_del _ _ hwf.handlersNodup
        · exact JsMap.keysNodup_del _ _ hwf.subTopicsNodup
        · intro t ids2 hids2
          have htne : t ≠ topic := by
            intro ht
            rw [ht, JsMap.get?_del_self _ _ hwf.topicsNodup] at hids2
            cases hids2
          rw [JsMap.get?_del_ne _ htne] at hids2
          obtain ⟨hne, hnd, hall⟩ := hwf.idsConsistent t ids2 hids2
          refine ⟨hne, hnd, ?_⟩
          intro i hi
          have hgi := hall i hi
          have hine : i ≠ id := by
            intro hi2
            rw [hi2, hst] at hgi
            injection hgi with hgi
            exact htne hgi.symm
          rw [JsMap.get?_del_ne _ hine]
          exact hgi
        · intro i t hgt
          obtain ⟨hine, hgt'⟩ := hst_clause i t hgt
          obtain ⟨ids3, hids3, hmem3⟩ := hwf.topicPresent i t hgt'
          have htne : t ≠ topic := by
            intro ht
            subst ht
            rw [hids3] at hids
            injection hids with hids
            subst hids
            have : i ∈ JsSet.del ids3 id := (hmem_erase i).mpr ⟨hine, hmem3⟩
            rw [hempty] at this
            simp at this
          exact ⟨ids3, by rw [JsMap.get?_del_ne _ htne]; exact hids3, hmem3⟩
        · intro i
          by_cases hi : i = id
          · subst hi
            simp [JsMap.hasKey, hdel_st_self, hdel_h_self]
          · simp [JsMap.hasKey, JsMap.get?_del_ne _ hi]
            have := hwf.domEq i
            simpa [JsMap.hasKey] using this
        · intro i t hgt
          obtain ⟨_, hgt'⟩ := hst_clause i t hgt
          exact hwf.topicsNonempty i t hgt'
        · intro i hkey
          simp only [JsMap.hasKey] at hkey
          by_cases hi : i = id
          · rw [hi, hdel_st_self] at hkey
            simp at hkey
          · rw [JsMap.get?_del_ne _ hi] at hkey
            exact hwf.counterBound i (by simpa [JsMap.hasKey] using hkey)
      · -- id set still nonempty: the topic keeps the shrunken set
        have hnonempty : JsSet.del ids id ≠ [] := by
          intro hnil
          apply hsz
          simp [JsSet.size, hnil]
        rw [if_neg hsz]
        constructor
        · exact JsMap.keysNodup_set _ _ _ hwf.topicsNodup
        · exact JsMap.keysNodup_del _ _ hwf.handlersNodup
        · exact JsMap.keysNodup_del _ _ hwf.subTopicsNodup
        · intro t ids2 hids2
          by_cases ht : t = topic
          · subst ht
            rw [JsMap.get?_set_self] at hids2
            injection hids2 with hids2
            subst hids2
            refine ⟨hnonempty, herase_nodup, ?_⟩
            intro i hi
            obtain ⟨hine, hmemi⟩ := (hmem_erase i).mp hi
            rw [JsMap.get?_del_ne _ hine]
            exact hidsall i hmemi
          · rw [JsMap.get?_set_ne _ _ ht] at hids2
            obtain ⟨hne, hnd, hall⟩ := hwf.idsConsistent t ids2 hids2
            refine ⟨hne, hnd, ?_⟩
            intro i hi
            have hgi := hall i hi
            have hine : i ≠ id := by
              intro hi2
              rw [hi2, hst] at hgi
              injection hgi with hgi
              exact ht hgi.symm
            rw [JsMap.get?_del_ne _ hine]
            exact hgi
        · intro i t hgt
          obtain ⟨hine, hgt'⟩ := hst_clause i t hgt
          obtain ⟨ids3, hids3, hmem3⟩ := hwf.topicPresent i t hgt'
          by_cases ht : t = topic
          · subst ht
            rw [hids3] at hids
            injection hids with hids
            subst hids
            exact ⟨JsSet.del ids3 id, JsMap.get?_set_self _ _ _,
              (hmem_erase i).mpr ⟨hine, hmem3⟩⟩
          · exact ⟨ids3, by rw [JsMap.get?_set_ne _ _ ht]; exact hids3, hmem3⟩
        · intro i
          by_cases hi : i = id
          · subst hi
            simp [JsMap.hasKey, hdel_st_self, hdel_h_self]
          · simp [JsMap.hasKey, JsMap.get?_del_ne _ hi]
            have := hwf.domEq i
            simpa [JsMap.hasKey] using this
        · intro i t hgt
          obtain ⟨_, hgt'⟩ := hst_clause i t hgt
          exact hwf.topicsNonempty i t hgt'
        · intro i hkey
          simp only [JsMap.hasKey] at hkey
          by_cases hi : i = id
          · rw [hi, hdel_st_self] at hkey
            simp at hkey
          · rw [JsMap.get?_del_ne _ hi] at hkey
            exact hwf.counterBound i (by simpa [JsMap.hasKey] using hkey)

theorem registryWF_applyOp (s : ClientState) (op : ClientOp)
    (hwf : RegistryWF s) : RegistryWF (applyOp s op) := by
  cases op with
  | subscribe topic h =>
      simp only [applyOp]
      by_cases htop : topic = ""
      · have hor : (topic = "" ∨ (some h : Option Nat) = none) := Or.inl htop
        unfold subscribe
        rw [if_pos hor]
        exact hwf
      · have hor : ¬(topic = "" ∨ (some h : Option Nat) = none) := by simp [htop]
        unfold subscribe
        rw [if_neg hor]
        dsimp only
        cases hk : JsMap.get? s.topics topic with
        | some ids0 =>
            have hhas : JsMap.hasKey s.topics topic = true := by
              simp [JsMap.hasKey, hk]
            rw [if_pos hhas, hk]
            dsimp only
            have hwf2 := registryWF_subscribed topic h s hwf htop ids0 (Or.inl hk)
            split
            · exact registryWF_congr _ _ (registryOf_scheduleRestart _ _) hwf2
            · exact registryWF_congr _ _ (registryOf_ensureConnection _) hwf2
        | none =>
            have hhas : ¬JsMap.hasKey s.topics topic = true := by
              simp [JsMap.hasKey, hk]
            rw [if_neg hhas, JsMap.get?_set_self]
            dsimp only
            rw [JsMap.set_set]
            have hwf2 := registryWF_subscribed topic h s hwf htop []
              (Or.inr ⟨hk, rfl⟩)
            split
            · exact registryWF_congr _ _ (registryOf_scheduleRestart _ _) hwf2
            · exact registryWF_congr _ _ (registryOf_ensureConnection _) hwf2
  | unsubscribe id =>
      simp only [applyOp]
      unfold unsubscribe
      dsimp only
      have hwf1 := registryWF_unsubscribed id s hwf
      split
      · exact registryWF_congr _ _ (registryOf_stop _) hwf1
      · split
        · exact registryWF_congr _ _ (registryOf_scheduleRestart _ _) hwf1
        · exact hwf1
  | stop =>
      simp only [applyOp]
      exact registryWF_congr _ _ (registryOf_stop _) hwf
  | fireRestartTimer =>
      simp only [applyOp]
      exact registryWF_congr _ _ (registryOf_fireRestartTimer _) hwf
  | fetchSettled g r =>
      simp only [applyOp]
      exact registryWF_congr _ _ (registryOf_onFetchSettled _ _ _) hwf
  | readResolved g b r =>
      simp only [applyOp]
      exact registryWF_congr _ _ (registryOf_streamReadResolved _ _ _ _) hwf
  | fireReconnectTimer g =>
      simp only [applyOp]
      exact registryWF_congr _ _ (registryOf_fireReconnectTimer _ _) hwf

theorem registryWF_runOps (s : ClientState) (ops : List ClientOp)
    (hwf : RegistryWF s) : RegistryWF (runOps s ops) := by
  induction ops generalizing s with
  | nil => exact hwf
  | cons op ops ih => exact ih _ (registryWF_applyOp s op hwf)

/-- Under the registry invariant, the topic map's key set is exactly the
set of topics with at least one live handler. -/
theorem mem_topics_keys_iff_live (s : ClientState) (hwf : RegistryWF s)
    (t : String) :
    t ∈ JsMap.keys s.topics ↔ topicHasLiveHandler s t = true := by
  constructor
  · intro hmem
    have hg := (JsMap.mem_keys_iff_get? _ _).mp hmem
    cases hget : JsMap.get? s.topics t with
    | none => rw [hget] at hg; simp at hg
    | some ids =>
        obtain ⟨hne, _, hall⟩ := hwf.idsConsistent t ids hget
        obtain ⟨i, hi⟩ := List.exists_mem_of_ne_nil ids hne
        have hst := hall i hi
        have hpairmem := JsMap.mem_of_get?_eq_some _ _ _ hst
        have hhk : JsMap.hasKey s.subscriptionHandlers i = true := by
          rw [hwf.domEq i]
          simp [JsMap.hasKey, hst]
        unfold topicHasLiveHandler
        rw [List.any_eq_true]
        exact ⟨(i, t), hpairmem, by simp [hhk]⟩
  · intro hlive
    unfold topicHasLiveHandler at hlive
    rw [List.any_eq_true] at hlive
    obtain ⟨⟨i, t'⟩, hmem, hpred⟩ := hlive
    simp only [Bool.and_eq_true, beq_iff_eq] at hpred
    obtain ⟨ht', _⟩ := hpred
    have hget := JsMap.get?_of_mem_nodup _ _ _ hwf.subTopicsNodup hmem
    rw [ht'] at hget
    obtain ⟨ids, hids, _⟩ := hwf.topicPresent i t hget
    rw [JsMap.mem_keys_iff_get?, hids]
    rfl

/-- C2: topic union correctness. Every state reachable from a fresh
client by any sequence of operations satisfies the registry invariant,
and from any such state, when a restart fires, the `topic` query
parameters of its one connection attempt are a duplicate-free list whose
members are exactly the topics with at least one live handler at that
moment. -/
theorem topic_union_correctness :
    (∀ (hubUrl : String) (jwt : Option String) (backoffMs maxBackoffMs : Nat)
      (ops : List ClientOp),
      RegistryWF (runOps (ClientState.init hubUrl jwt backoffMs maxBackoffMs) ops)) ∧
    (∀ (s : ClientState) (reason : String), RegistryWF s →
      ∀ url g, Effect.fetchRequested url g ∈ (restartStream reason s).2 →
        url.topicParams.Nodup ∧
        ∀ t, t ∈ url.topicParams ↔ topicHasLiveHandler s t = true) := by
  constructor
  · intro hubUrl jwt b M ops
    exact registryWF_runOps _ ops (registryWF_init hubUrl jwt b M)
  · intro s reason hwf url g hmem
    by_cases hjwt : jwtMissing s = true
    · unfold restartStream at hmem
      rw [if_pos hjwt] at hmem
      simp at hmem
    · by_cases htop : JsMap.keys s.topics = []
      · unfold restartStream at hmem
        rw [if_neg hjwt] at hmem
        dsimp only at hmem
        rw [if_pos htop] at hmem
        unfold stop at hmem
        dsimp only at hmem
        split at hmem <;> simp at hmem
      · have hjwt' : jwtMissing s = false := by simpa using hjwt
        have heffs := restartStream_effects reason s hjwt' htop
        rw [heffs] at hmem
        rcases List.mem_append.mp hmem with hin | hin
        · split at hin <;> simp at hin
        · have h1 := List.mem_singleton.mp hin
          injection h1 with h2 h3
          subst h2
          refine ⟨hwf.topicsNodup, ?_⟩
          intro t
          exact mem_topics_keys_iff_live s hwf t

/-- Witness: the invariant holds for the demonstration run, and a restart
from the demonstration state carries exactly the one live topic. -/
theorem topic_union_correctness_witness :
    "/tg/login/42" ∈ (buildHubUrl "https://hub" ["/tg/login/42"]).topicParams ↔
      topicHasLiveHandler demoStreaming "/tg/login/42" = true :=
  (topic_union_correctness.2 demoStreaming "topic_added"
    (topic_union_correctness.1 "https://hub" (some "jwt-token") 2000 20000
      [ClientOp.subscribe "/tg/login/42" 7, ClientOp.fetchSettled 1 FetchResult.ok])
    (buildHubUrl "https://hub" ["/tg/login/42"]) 2
    (List.Mem.tail _ (List.Mem.tail _ (List.Mem.head _)))).2 "/tg/login/42"

/-! ## C7: unsubscribe teardown and idempotence -/

theorem registryOf_unsubscribe (id : Nat) (s : ClientState) :
    registryOf (unsubscribe id s).1 =
      ((match JsMap.get? s.subscriptionTopics id with
        | some topic =>
            if topic = "" then s.topics
            else
              match JsMap.get? s.topics topic with
              | some ids =>
                  if JsSet.size (JsSet.del ids id) = 0 then
                    JsMap.del s.topics topic
                  else JsMap.set s.topics topic (JsSet.del ids id)
              | none => s.topics
        | none => s.topics),
       JsMap.del s.subscriptionHandlers id,
       JsMap.del s.subscriptionTopics id,
       s.subscriptionCounter) := by
  unfold unsubscribe
  dsimp only
  split
  · rw [registryOf_stop]
    rfl
  · split
    · rw [registryOf_scheduleRestart]
      rfl
    · rfl

theorem stop_fields (s : ClientState) :
    (stop s).1.connectionActive = false ∧
    (stop s).1.restartTimer = none ∧
    (stop s).1.reader = none ∧
    (stop s).1.activeGeneration = none := by
  unfold stop clearScheduledRestart
  cases hrt : s.restartTimer <;> simp [hrt]

theorem unsubscribe_connection_fields (id : Nat) (s : ClientState)
    (hempty : JsMap.keys (unsubscribe id s).1.topics = []) :
    (unsubscribe id s).1.connectionActive = false ∧
    (unsubscribe id s).1.restartTimer = none ∧
    (unsubscribe id s).1.reader = none ∧
    (unsubscribe id s).1.activeGeneration = none := by
  have hreg := registryOf_unsubscribe id s
  have hTop : (unsubscribe id s).1.topics =
      (match JsMap.get? s.subscriptionTopics id with
        | some topic =>
            if topic = "" then s.topics
            else
              match JsMap.get? s.topics topic with
              | some ids =>
                  if JsSet.size (JsSet.del ids id) = 0 then
                    JsMap.del s.topics topic
                  else JsMap.set s.topics topic (JsSet.del ids id)
              | none => s.topics
        | none => s.topics) := congrArg Prod.fst hreg
  rw [hTop] at hempty
  have hsz : JsMap.size
      (match JsMap.get? s.subscriptionTopics id with
        | some topic =>
            if topic = "" then s.topics
            else
              match JsMap.get? s.topics topic with
              | some ids =>
                  if JsSet.size (JsSet.del ids id) = 0 then
                    JsMap.del s.topics topic
                  else JsMap.set s.topics topic (JsSet.del ids id)
              | none => s.topics
        | none => s.topics) = 0 := by
    have := congrArg List.length hempty
    simpa [JsMap.keys, JsMap.size] using this
  unfold unsubscribe
  dsimp only
  rw [if_pos hsz]
  exact stop_fields _

/-- C7: `unsubscribe(handle)` removes the registration; if the handle's
topic then has no other live registration, the topic leaves the active
set; if the active set becomes empty the connection is torn down with
`stop()` semantics (inactive, no pending coalescing timer, reader and
active generation dropped); and the returned unsubscribe closure is
idempotent — a second call changes no registry state. -/
theorem unsubscribe_teardown_idempotent (s : ClientState) (id : Nat)
    (t : String) (hwf : RegistryWF s)
    (hsub : JsMap.get? s.subscriptionTopics id = some t) :
    (JsMap.get? (unsubscribe id s).1.subscriptionHandlers id = none ∧
     JsMap.get? (unsubscribe id s).1.subscriptionTopics id = none) ∧
    ((∀ i, i ≠ id → JsMap.get? s.subscriptionTopics i ≠ some t) →
      t ∉ JsMap.keys (unsubscribe id s).1.topics) ∧
    (JsMap.keys (unsubscribe id s).1.topics = [] →
      ((unsubscribe id s).1.connectionActive = false ∧
       (unsubscribe id s).1.restartTimer = none ∧
       (unsubscribe id s).1.reader = none ∧
       (unsubscribe id s).1.activeGeneration = none)) ∧
    registryOf (unsubscribe id (unsubscribe id s).1).1 =
      registryOf (unsubscribe id s).1 := by
  have hreg := registryOf_unsubscribe id s
  have hH : (unsubscribe id s).1.subscriptionHandlers =
      JsMap.del s.subscriptionHandlers id :=
    congrArg (fun p => p.2.1) hreg
  have hS : (unsubscribe id s).1.subscriptionTopics =
      JsMap.del s.subscriptionTopics id :=
    congrArg (fun p => p.2.2.1) hreg
  have hTop : (unsubscribe id s).1.topics =
      (match JsMap.get? s.subscriptionTopics id with
        | some topic =>
            if topic = "" then s.topics
            else
              match JsMap.get? s.topics topic with
              | some ids =>
                  if JsSet.size (JsSet.del ids id) = 0 then
                    JsMap.del s.topics topic
                  else JsMap.set s.topics topic (JsSet.del ids id)
              | none => s.topics
        | none => s.topics) := congrArg Prod.fst hreg
  have hHnone : JsMap.get? (unsubscribe id s).1.subscriptionHandlers id = none := by
    rw [hH]
    exact JsMap.get?_del_self _ _ hwf.handlersNodup
  have hSnone : JsMap.get? (unsubscribe id s).1.subscriptionTopics id = none := by
    rw [hS]
    exact JsMap.get?_del_self _ _ hwf.subTopicsNodup
  refine ⟨⟨hHnone, hSnone⟩, ?_, unsubscribe_connection_fields id s, ?_⟩
  · -- last live registration: the topic drops out of the active set
    intro honly
    have htne : t ≠ "" := hwf.topicsNonempty id t hsub
    obtain ⟨ids, hids, hidmem⟩ := hwf.topicPresent id t hsub
    obtain ⟨hne, hnd, hall⟩ := hwf.idsConsistent t ids hids
    have hids_eq : ids = [id] := by
      have hall_id : ∀ i ∈ ids, i = id := by
        intro i hi
        by_contra hni
        exact honly i hni (hall i hi)
      cases ids with
      | nil => cases hne rfl
      | cons x rest =>
          have hx : x = id := hall_id x (List.mem_cons_self _ _)
          subst hx
          cases rest with
          | nil => rfl
          | cons y rest2 =>
              have hy : y = x := hall_id y (by simp)
              subst hy
              simp at hnd
    have hdel : JsSet.del ids id = [] := by
      rw [hids_eq]
      simp [JsSet.del]
    rw [hTop, hsub]
    dsimp only
    rw [if_neg htne, hids]
    dsimp only
    rw [hdel, if_pos (show JsSet.size ([] : JsSet Nat) = 0 from rfl)]
    rw [JsMap.mem_keys_iff_get?, JsMap.get?_del_self _ _ hwf.topicsNodup]
    simp
  · -- idempotence of the closure on the registry
    have hreg2 := registryOf_unsubscribe id (unsubscribe id s).1
    rw [hreg2, hSnone]
    dsimp only
    rw [JsMap.del_eq_of_get?_none _ _ hHnone,
      JsMap.del_eq_of_get?_none _ _ hSnone]
    rfl

/-- Witness: unsubscribing the only demonstration subscription removes
its registration. -/
theorem unsubscribe_teardown_idempotent_witness :
    JsMap.get? (unsubscribe 1 demoStreaming).1.subscriptionHandlers 1 = none ∧
    JsMap.get? (unsubscribe 1 demoStreaming).1.subscriptionTopics 1 = none :=
  (unsubscribe_teardown_idempotent demoStreaming 1 "/tg/login/42"
    (registryWF_runOps (ClientState.init "https://hub" (some "jwt-token") 2000 20000)
      [ClientOp.subscribe "/tg/login/42" 7, ClientOp.fetchSettled 1 FetchResult.ok]
      (registryWF_init "https://hub" (some "jwt-token") 2000 20000))
    rfl).1

end MatchingBot
